import Mathlib

/-!
Verification of `robotdictionary.py` (phobos robot-model export module).

The module translates the live object graph of a 3D-authoring host into a
serializable robot-model dictionary.  We shallow-embed the module: Python
dictionaries become ordered association lists over the value type `Val`,
Python numbers are modelled by `Int` (no claim depends on non-integral
values), raised exceptions become `Except.error` carrying the exception
message, and host objects become explicit structures.  An object's parent
chain is flattened into a list of ancestor cores, so walking up parent
links is structural recursion.

Helper functions of the same repository that live outside the single
source file (naming, selection, text-block access) are modelled from the
spec; their definitions carry a `Modelled from the spec:` comment.
Truly external callbacks (geometry/pose derivation, joint constraint
reading, YAML) are fields of an explicit `Env` record, so every theorem
quantifies over them.
-/

namespace Phobos

/-- A Python value as used by the module: `None`, strings, numbers
(modelled by `Int`), booleans, lists and string-keyed dictionaries
(ordered association lists, mirroring Python dict insertion order). -/
inductive Val where
  | none : Val
  | str : String → Val
  | int : Int → Val
  | bool : Bool → Val
  | list : List Val → Val
  | dict : List (String × Val) → Val
deriving Repr

/-- Association-list lookup, the embedding of `d[k]` reads / `k in d`. -/
def dlookup {α : Type} : List (String × α) → String → Option α
  | [], _ => Option.none
  | (k', v) :: rest, k => if k' = k then some v else dlookup rest k

/-- The embedding of `d[k] = v` on a Python dict: replace in place if the
key exists (keeping its position), else append at the end. -/
def dinsert {α : Type} : List (String × α) → String → α → List (String × α)
  | [], k, v => [(k, v)]
  | (k', v') :: rest, k, v =>
      if k' = k then (k, v) :: rest else (k', v') :: dinsert rest k v

/-- The embedding of `del d[k]`. -/
def ddelete {α : Type} : List (String × α) → String → List (String × α)
  | [], _ => []
  | (k', v') :: rest, k =>
      if k' = k then rest else (k', v') :: ddelete rest k

@[simp] theorem dlookup_nil {α : Type} (k : String) :
    dlookup ([] : List (String × α)) k = Option.none := rfl

theorem dlookup_dinsert_self {α : Type} (d : List (String × α)) (k : String) (v : α) :
    dlookup (dinsert d k v) k = some v := by
  induction d with
  | nil => simp [dinsert, dlookup]
  | cons hd tl ih =>
      obtain ⟨k', v'⟩ := hd
      by_cases h : k' = k
      · simp [dinsert, dlookup, h]
      · simp [dinsert, dlookup, h, ih]

theorem dlookup_dinsert_ne {α : Type} (d : List (String × α)) (k k' : String) (v : α)
    (h : k ≠ k') : dlookup (dinsert d k v) k' = dlookup d k' := by
  induction d with
  | nil => simp [dinsert, dlookup, h]
  | cons hd tl ih =>
      obtain ⟨k₀, v₀⟩ := hd
      by_cases h₀ : k₀ = k
      · subst h₀
        simp [dinsert, dlookup, h]
      · simp [dinsert, dlookup, h₀, ih]

theorem mem_keys_dinsert_self {α : Type} (d : List (String × α)) (k : String) (v : α) :
    k ∈ (dinsert d k v).map Prod.fst := by
  induction d with
  | nil => simp [dinsert]
  | cons hd tl ih =>
      obtain ⟨k₀, v₀⟩ := hd
      by_cases h₀ : k₀ = k
      · simp [dinsert, h₀]
      · simp only [dinsert, if_neg h₀, List.map_cons, List.mem_cons]
        exact Or.inr ih

theorem mem_keys_dinsert_of_mem {α : Type} (d : List (String × α)) (k q : String) (v : α)
    (h : q ∈ d.map Prod.fst) : q ∈ (dinsert d k v).map Prod.fst := by
  induction d with
  | nil => simp at h
  | cons hd tl ih =>
      obtain ⟨k₀, v₀⟩ := hd
      simp only [List.map_cons, List.mem_cons] at h
      by_cases h₀ : k₀ = k
      · subst h₀
        have hstep : dinsert ((k₀, v₀) :: tl) k₀ v = (k₀, v) :: tl := by
          simp [dinsert]
        rw [hstep]
        rcases h with h | h
        · simp [h]
        · simp only [List.map_cons, List.mem_cons]
          exact Or.inr h
      · simp only [dinsert, if_neg h₀, List.map_cons, List.mem_cons]
        rcases h with h | h
        · exact Or.inl h
        · exact Or.inr (ih h)

/-! ### Character-list string helpers

Python string operations used by `initObjectProperties` and friends
(`'/' in key`, `key.split('/')`, `key.replace(pt+'/', '')`,
`key.count('/')`, `s.startswith(p)`, `s[n:]`), implemented on `List Char`
by structural recursion so that every concrete evaluation reduces in the
kernel. -/

/-- `key.split('/')` on a character list. -/
def splitSlash : List Char → List (List Char)
  | [] => [[]]
  | c :: rest =>
      match splitSlash rest with
      | [] => [[]]
      | h :: t => if c = '/' then [] :: h :: t else (c :: h) :: t

/-- Whether `pat` occurs as a contiguous sublist of `s` (Python `pat in s`). -/
def containsSub (pat : List Char) : List Char → Bool
  | [] => pat.isPrefixOf ([] : List Char)
  | c :: rest => pat.isPrefixOf (c :: rest) || containsSub pat rest

/-- Fuel-driven worker for `replaceAll`; the fuel is the length of the
text, enough since each step consumes at least one character. -/
def replaceAllAux (pat rep : List Char) : Nat → List Char → List Char
  | 0, s => s
  | _ + 1, [] => []
  | fuel + 1, c :: rest =>
      if pat ≠ [] ∧ pat.isPrefixOf (c :: rest) then
        rep ++ replaceAllAux pat rep fuel ((c :: rest).drop pat.length)
      else
        c :: replaceAllAux pat rep fuel rest

/-- Python `s.replace(pat, rep)`: replace every occurrence, left to right. -/
def replaceAll (pat rep s : List Char) : List Char :=
  replaceAllAux pat rep s.length s

/-- Python `s.count(c)` for a single character. -/
def countChar (c : Char) (s : List Char) : Nat :=
  (s.filter (fun x => x = c)).length

/-- Python `s.startswith(p)` via the character lists. -/
def strStartsWith (s p : String) : Bool :=
  p.toList.isPrefixOf s.toList

/-- Python `s[n:]` via the character list. -/
def strDrop (s : String) (n : Nat) : String :=
  String.mk (s.toList.drop n)

/-- Substring test on `String`s (Python `p in s`). -/
def strContains (s p : String) : Bool :=
  containsSub p.toList s.toList

/-- `s.replace(pat, rep)` on `String`s. -/
def strReplace (s pat rep : String) : String :=
  String.mk (replaceAll pat.toList rep.toList s.toList)

/-! ### The host object model

Structures mirroring the fields of the host application's objects that
the module reads: custom key/value properties (`obj.items()`), the
phobostype tag, material and texture slots, lamp data, rigid-body
collision groups (a fixed array of 20 booleans in the host), level-of-
detail entries, local transform, armature pose bone, and selection
state.  An object's chain of parents is flattened into a list of
ancestor cores (nearest parent first), so `obj.parent` is the head. -/

/-- A texture slot's texture, as read by `deriveMaterial`: the three map
flags and the image file path (`Option.none` models a missing
`texture.image`, which raises the caught `AttributeError`). -/
structure Tex where
  use_map_color_diffuse : Bool
  use_map_normal : Bool
  use_map_displacement : Bool
  image_filepath : Option String

/-- A host material with the fields `deriveMaterial` reads.  Color
components and intensities are modelled by `Int`. -/
structure Mat where
  name : String
  props : List (String × Val)
  diffuse_color : List Int
  diffuse_intensity : Int
  ambient : Int
  specular_color : List Int
  specular_intensity : Int
  emit : Int
  specular_hardness : Int
  use_transparency : Bool
  alpha : Int
  texture_slots : List (Option Tex)

/-- Lamp data (`obj.data` of a light object) as read by `deriveLight`.
`Option.none` attenuation fields model lamp types lacking the attribute
(the caught `AttributeError`). -/
structure Lamp where
  use_diffuse : Bool
  use_specular : Bool
  color : List Int
  lamptype : String
  size : Int
  linear_attenuation : Option Int
  quadratic_attenuation : Option Int
  energy : Int

/-- All per-object data except the parent pointer. -/
structure ObjCore where
  name : String
  phobostype : String
  props : List (String × Val)
  select : Bool
  hide : Bool
  rigid_body : Option (Fin 20 → Bool)
  materials : List Mat
  lamp : Option Lamp
  lod_levels : List (Int × String)
  dimensions0 : Int
  loc : List Int
  rot : List Int
  boneRotY : Option Int

/-- A host object: its own data plus the cores of its ancestors, nearest
parent first (`obj.parent` is the head of `ancestors`). -/
structure Obj where
  core : ObjCore
  ancestors : List ObjCore

/-- `obj.parent` (an `Obj` again, carrying the remaining ancestors). -/
def Obj.parentObj (o : Obj) : Option Obj :=
  match o.ancestors with
  | [] => Option.none
  | p :: rest => some ⟨p, rest⟩

/-- A host object group (`bpy.data.groups` element). -/
structure Group where
  name : String
  props : List (String × Val)
  objects : List Obj

/-- The world settings read by the module (`bpy.data.worlds[0]`). -/
structure World where
  useObj : Bool
  useBobj : Bool
  useStl : Bool
  useDae : Bool
  decimalPlaces : Nat

/-- The scene: its objects, the flat text-block store
(`bpy.data.texts`, name to content), the object groups and the world. -/
structure Scene where
  objects : List Obj
  texts : List (String × String)
  groups : List Group
  world : World

/-- Modelled from the spec: the external helpers the module calls whose
code is outside this file — pose/geometry derivation and joint-constraint
reading from the host's object data, the joint-type classifier
(`phobos.joints.deriveJointType`, modelled as a pure reader per the
spec's one-directional description), the YAML codec used by the flat
text/YAML pose store, and the model timestamp. -/
structure Env where
  now : String
  deriveObjectPose : Obj → Val
  deriveGeometry : Obj → Val
  deriveJointType : Obj → String × Val
  getJointConstraints : Obj → Option (List Int) × Option (List Int)
  yamlLoad : String → List (String × List (String × Int))
  yamlDump : List (String × List (String × Int)) → String

/-- The `ignoretypes` argument of `initObjectProperties`: Python callers
pass either a list of strings (membership test) or a plain string
(substring test). -/
inductive Ign where
  | ofList : List String → Ign
  | ofStr : String → Ign

/-- Python `category not in ignoretypes`, negated: list membership or
substring containment depending on the argument's type. -/
def Ign.mem (i : Ign) (category : String) : Bool :=
  match i with
  | .ofList l => l.contains category
  | .ofStr s => strContains s category

/-! ### Helpers of this repository living outside the source file -/

/-- Modelled from the spec: `phobos.utils.naming.getObjectName` is not
under `src/`.  Per the spec, objects carry custom per-object key/value
properties; an object's export name is its custom `<type>/name` property
when present with a string value, else its host scene name. -/
def nameWith (props : List (String × Val)) (fallback t : String) : String :=
  match dlookup props (t ++ "/name") with
  | some (Val.str s) => s
  | _ => fallback

/-- `nUtils.getObjectName(obj)` / `nUtils.getObjectName(obj, t)`: the
type defaults to the object's own phobostype. -/
def getObjectName (c : ObjCore) (t : Option String) : String :=
  nameWith c.props c.name (t.getD c.phobostype)

/-- `nUtils.getObjectName(mat, 'material')` for a material. -/
def getMaterialName (m : Mat) : String :=
  nameWith m.props m.name "material"

/-- `nUtils.getObjectName(group, 'group')` for a group. -/
def getGroupName (g : Group) : String :=
  nameWith g.props g.name "group"

/-- The root of an object's parent chain (the object itself when it has
no parent). -/
def rootCore (o : Obj) : ObjCore :=
  o.ancestors.getLastD o.core

/-- Modelled from the spec: `sUtils.getRoots` is not under `src/`; the
roots of the scene graph are the objects without a parent. -/
def getRoots (s : Scene) : List Obj :=
  s.objects.filter (fun o => o.ancestors.isEmpty)

/-- Modelled from the spec: `sUtils.getChildren(root, selected_only,
include_hidden)` is not under `src/`; it collects the scene objects
whose topmost ancestor is `root` (the root itself included), optionally
restricted to selected and to non-hidden objects.  Host object names are
unique, so objects are identified by name. -/
def getChildren (s : Scene) (root : Obj) (selected_only include_hidden : Bool) :
    List Obj :=
  s.objects.filter (fun o =>
    (rootCore o).name == (rootCore root).name
      && (!selected_only || o.core.select)
      && (include_hidden || !o.core.hide))

/-- Modelled from the spec: `sUtils.getEffectiveParent` is not under
`src/`; per the spec's kinematic structure it is the nearest ancestor
tagged as a link. -/
def effectiveParent (o : Obj) : Option ObjCore :=
  o.ancestors.find? (fun a => a.phobostype == "link")

/-- Modelled from the spec: `bUtils.readTextFile` over the flat
text-block store; a missing block reads as the empty string. -/
def readTextFile (texts : List (String × String)) (n : String) : String :=
  (dlookup texts n).getD ""

/-- Modelled from the spec: `bUtils.updateTextFile` replaces the named
text block's content (creating the block when missing). -/
def updateTextFile (texts : List (String × String)) (n c : String) :
    List (String × String) :=
  dinsert texts n c

/-! ### `initObjectProperties` -/

/-- `props['$'+category][specifier] = value` with creation of the
`'$'+category` sub-dictionary when absent.  When that key is occupied by
a non-dict value Python would raise `TypeError` (possible only for
pathological property sets, which the host UI never produces); we
overwrite with a fresh dictionary there. -/
def nestedSet (acc : List (String × Val)) (category specifier : String) (v : Val) :
    List (String × Val) :=
  let key := "$" ++ category
  match dlookup acc key with
  | some (Val.dict d) => dinsert acc key (Val.dict (dinsert d specifier v))
  | _ => dinsert acc key (Val.dict (dinsert [] specifier v))

/-- One iteration of the property-copying loop of `initObjectProperties`
in the branch where a phobostype was given (source lines 402-421). -/
def propStepTyped (pt : String) (ign : Ign) (acc : List (String × Val))
    (kv : String × Val) : List (String × Val) :=
  if strContains kv.1 "/" then
    if strContains kv.1 (pt ++ "/") then
      match (splitSlash kv.1.toList).map String.mk with
      | _ :: [_] => dinsert acc (strReplace kv.1 (pt ++ "/") "") kv.2
      | _ :: [category, specifier] => nestedSet acc category specifier kv.2
      | _ => acc
    else if countChar '/' kv.1.toList = 1 then
      match (splitSlash kv.1.toList).map String.mk with
      | [category, specifier] =>
          if ign.mem category then acc else nestedSet acc category specifier kv.2
      | _ => acc
    else acc
  else acc

/-- `initObjectProperties(obj, phobostype, ignoretypes)` (source lines
385-422): start from `{'name': getObjectName(obj, 'material')}`, then
copy the object's custom properties — all of them when no phobostype is
given, else only slash-separated keys, remapped as in the source. -/
def initObjectProperties (items : List (String × Val)) (objName : String)
    (phobostype : Option String) (ignoretypes : Ign) : List (String × Val) :=
  let base := [("name", Val.str (nameWith items objName "material"))]
  match phobostype with
  | Option.none => items.foldl (fun acc kv => dinsert acc kv.1 kv.2) base
  | some pt => items.foldl (propStepTyped pt ignoretypes) base

/-! ### Derivation functions (source lines 60-382) -/

/-- A Python dict value in the embedding. -/
abbrev PyDict := List (String × Val)

/-- Exception messages that the claims quote. -/
def msgNoLinkRoot : String := "Found no 'link' object as root of the robot model."

/-- The `NameError` raised by the final return of `buildModelDictionary`
(source line 718 calls `gUtils.epsilonToZero`, but the module only
imports `epsilonToZero` itself, line 47; the name `gUtils` is unbound). -/
def msgGUtils : String := "NameError: name 'gUtils' is not defined"

/-- `dict(zip(['r', 'g', 'b'], vals))` with numeric values. -/
def rgbDict (vals : List Int) : Val :=
  Val.dict ((List.zip ["r", "g", "b"] vals).map (fun p => (p.1, Val.int p.2)))

/-- `mat.texture_slots[0].texture.image.filepath`: the first slot's image
path; `Option.none` models the `AttributeError` of an empty first slot or
a texture without an image (caught in the source, lines 104-112). -/
def texPath (m : Mat) : Option String :=
  match m.texture_slots.head? with
  | some (some t) => t.image_filepath
  | _ => Option.none

/-- Displacement-map part of the texture loop (line 109-110). -/
def texStepDisp (m : Mat) (acc : PyDict) (t : Tex) : PyDict :=
  if t.use_map_displacement then
    match texPath m with
    | Option.none => acc
    | some p => dinsert acc "displacementTexture" (Val.str (strReplace p "//" ""))
  else acc

/-- Normal-map part of the texture loop (line 107-108); an
`AttributeError` here skips the displacement check of the same slot. -/
def texStepNormal (m : Mat) (acc : PyDict) (t : Tex) : PyDict :=
  if t.use_map_normal then
    match texPath m with
    | Option.none => acc
    | some p => texStepDisp m (dinsert acc "normalTexture" (Val.str (strReplace p "//" ""))) t
  else texStepDisp m acc t

/-- One slot of the texture loop of `deriveMaterial` (lines 102-112): the
three map checks share one `try`, so an `AttributeError` in an earlier
check skips the later ones for this slot. -/
def texStep (m : Mat) (acc : PyDict) (slot : Option Tex) : PyDict :=
  match slot with
  | Option.none => acc
  | some t =>
      if t.use_map_color_diffuse then
        match texPath m with
        | Option.none => acc
        | some p => texStepNormal m (dinsert acc "diffuseTexture" (Val.str (strReplace p "//" ""))) t
      else texStepNormal m acc t

/-- `deriveMaterial(mat)` (source lines 80-113). -/
def deriveMaterial (m : Mat) : PyDict :=
  let material := initObjectProperties m.props m.name (some "material") (Ign.ofList [])
  let material := dinsert material "name" (Val.str m.name)
  let material := dinsert material "diffuseColor"
    (rgbDict (m.diffuse_color.map (fun x => m.diffuse_intensity * x)))
  let material := dinsert material "ambientColor"
    (rgbDict (m.diffuse_color.map (fun x => m.ambient * m.diffuse_intensity * x)))
  let material := dinsert material "specularColor"
    (rgbDict (m.specular_color.map (fun x => m.specular_intensity * x)))
  let material := if m.emit > 0 then
      dinsert material "emissionColor"
        (rgbDict (m.specular_color.map (fun x => m.emit * m.specular_intensity * x)))
    else material
  let material := dinsert material "shininess" (Val.int (m.specular_hardness / 2))
  let material := if m.use_transparency then
      dinsert material "transparency" (Val.int (1 - m.alpha))
    else material
  m.texture_slots.foldl (texStep m) material

/-- The body of the `collectMaterials` loop for a visual's first
material (source lines 71-76): a fresh name gets the derived material
with `users = 1`, a known one gets its `users` counter incremented (the
counter is always an integer in a dict entry, so the fallthrough
branches are unreachable). -/
def collectVisualMat (acc : PyDict) (mat : Mat) : PyDict :=
  match dlookup acc mat.name with
  | Option.none =>
      dinsert acc mat.name (Val.dict (dinsert (deriveMaterial mat) "users" (Val.int 1)))
  | some (Val.dict e) =>
      (match dlookup e "users" with
       | some (Val.int n) => dinsert acc mat.name (Val.dict (dinsert e "users" (Val.int (n + 1))))
       | _ => acc)
  | some _ => acc

/-- One iteration of the loop of `collectMaterials` (source lines
69-76): only a visual object with a non-empty material list contributes,
through its first material. -/
def collectStep (acc : PyDict) (o : Obj) : PyDict :=
  if o.core.phobostype = "visual" then
    match o.core.materials with
    | [] => acc
    | mat :: _ => collectVisualMat acc mat
  else acc

/-- `collectMaterials(objectlist)` (source lines 60-77). -/
def collectMaterials (objectlist : List Obj) : PyDict :=
  objectlist.foldl collectStep []

/-- `deriveLink(obj)` (source lines 116-130). -/
def deriveLink (env : Env) (o : Obj) : PyDict :=
  let props := initObjectProperties o.core.props o.core.name (some "link")
    (Ign.ofList ["joint", "motor"])
  let props := dinsert props "pose" (env.deriveObjectPose o)
  let props := dinsert props "collision" (Val.dict [])
  let props := dinsert props "visual" (Val.dict [])
  let props := dinsert props "inertial" (Val.dict [])
  dinsert props "approxcollision" (Val.list [])

/-- `deriveJoint(obj)` (source lines 133-168).  Lines 140-141 call
`joints.deriveJointType(obj, adjust=True)` when the object lacks a
`joint/type` property and discard both results; the callee is modelled
from the spec as a pure reader (`Env.deriveJointType`). -/
def deriveJoint (env : Env) (o : Obj) : Except String PyDict :=
  let _jt := if (dlookup o.core.props "joint/type").isSome then Option.none
             else some (env.deriveJointType o)
  let props := initObjectProperties o.core.props o.core.name (some "joint")
    (Ign.ofList ["link", "motor"])
  match effectiveParent o with
  | Option.none => Except.error "AttributeError: 'NoneType' object has no attribute 'name'"
  | some parent =>
    let props := dinsert props "parent" (Val.str (getObjectName parent Option.none))
    let props := dinsert props "child" (Val.str (getObjectName o.core Option.none))
    let ax := (env.getJointConstraints o).1
    let minmax := (env.getJointConstraints o).2
    let props := match ax with
      | some a => dinsert props "axis" (Val.list (a.map Val.int))
      | Option.none => props
    let limits : PyDict := match minmax with
      | some [lo, hi] => [("lower", Val.int lo), ("upper", Val.int hi)]
      | _ => []
    let step1 : PyDict × PyDict := match dlookup props "maxvelocity" with
      | some v => (dinsert limits "velocity" v, ddelete props "maxvelocity")
      | Option.none => (limits, props)
    let step2 : PyDict × PyDict := match dlookup step1.2 "maxeffort" with
      | some v => (dinsert step1.1 "effort" v, ddelete step1.2 "maxeffort")
      | Option.none => step1
    let props := if step2.1.isEmpty then step2.2
      else dinsert step2.2 "limits" (Val.dict step2.1)
    Except.ok props

/-- `deriveMotor(obj, joint)` (source lines 188-214).  `Except.ok
Option.none` is the `return None` of an unattached or incompatible
motor; the caught `KeyError`s of the source are the missing-key
branches. -/
def deriveMotor (o : Obj) (joint : PyDict) : Except String (Option PyDict) :=
  let props := initObjectProperties o.core.props o.core.name (some "motor")
    (Ign.ofList ["link", "joint"])
  if props.length > 1 then
    let props := dinsert props "joint"
      (match dlookup o.core.props "joint/name" with
       | some v => v
       | Option.none => Val.str o.core.name)
    match dlookup props "type" with
    | Option.none => Except.ok Option.none   -- KeyError on props['type']
    | some (Val.str "PID") =>
        (match dlookup joint "limits" with
         | Option.none => Except.ok (some props)
         | some (Val.dict lim) =>
             (match dlookup lim "lower", dlookup lim "upper" with
              | some lo, some hi =>
                  Except.ok (some (dinsert (dinsert props "minValue" lo) "maxValue" hi))
              | _, _ => Except.ok Option.none)  -- KeyError on 'lower'/'upper'
         | some _ => Except.error "TypeError: joint limits not subscriptable")
    | some (Val.str "DC") =>
        (match dlookup props "maxSpeed" with
         | some ms => Except.ok (some (dinsert (dinsert props "minValue" (Val.int 0)) "maxValue" ms))
         | Option.none => Except.ok Option.none)  -- KeyError on props['maxSpeed']
    | some _ => Except.ok (some props)
  else Except.ok Option.none

/-- `deriveKinematics(obj)` (source lines 217-237): joint and motor are
only derived for objects with a parent. -/
def deriveKinematics (env : Env) (o : Obj) :
    Except String (PyDict × Option PyDict × Option PyDict) :=
  let link := deriveLink env o
  match o.parentObj with
  | Option.none => Except.ok (link, Option.none, Option.none)
  | some _ =>
      match deriveJoint env o with
      | Except.error e => Except.error e
      | Except.ok joint =>
          match deriveMotor o joint with
          | Except.error e => Except.error e
          | Except.ok motor => Except.ok (link, some joint, motor)

/-- `deriveInertial(obj)` (source lines 240-250); a missing
`inertial/inertia` property raises the `KeyError` caught by
`deriveDictEntry`. -/
def deriveInertial (env : Env) (o : Obj) : Except String Val :=
  let props := initObjectProperties o.core.props o.core.name (some "inertial") (Ign.ofList [])
  match dlookup o.core.props "inertial/inertia" with
  | Option.none => Except.error "KeyError: 'inertial/inertia'"
  | some (Val.list l) =>
      let props := dinsert props "inertia" (Val.list l)
      Except.ok (Val.dict (dinsert props "pose" (env.deriveObjectPose o)))
  | some _ => Except.error "TypeError: 'inertial/inertia' not iterable"

/-- The mesh filename extension chosen from the world's export flags
(source lines 272-281). -/
def lodExt (w : World) : String :=
  if w.useObj then ".obj"
  else if w.useBobj then ".bobj"
  else if w.useStl then ".stl"
  else if w.useDae then ".dae"
  else ".obj"

/-- The level-of-detail list of `deriveVisual` (source lines 269-282);
`maxd` shorter than the level list is the uncaught `IndexError`. -/
def buildLod (ext : String) : List (Int × String) → List Val → Except String (List Val)
  | [], _ => Except.ok []
  | _ :: _, [] => Except.error "IndexError: list index out of range"
  | lv :: rest, m :: ms =>
      match buildLod ext rest ms with
      | Except.error e => Except.error e
      | Except.ok tl =>
          Except.ok (Val.dict [("start", Val.int lv.1), ("end", m),
            ("filename", Val.str ("meshes/" ++ lv.2 ++ ext))] :: tl)

/-- `deriveVisual(obj)` (source lines 253-286). -/
def deriveVisual (env : Env) (w : World) (o : Obj) : Except String Val :=
  let visual := initObjectProperties o.core.props o.core.name (some "visual")
    (Ign.ofStr "geometry")
  let visual := dinsert visual "geometry" (env.deriveGeometry o)
  let visual := dinsert visual "pose" (env.deriveObjectPose o)
  match o.core.lod_levels with
  | [] => Except.ok (Val.dict visual)
  | lvls =>
      let maxd : Except String (List Val) :=
        match dlookup o.core.props "lodmaxdistances" with
        | some (Val.list l) => Except.ok l
        | some _ => Except.error "TypeError: 'lodmaxdistances' not subscriptable"
        | Option.none =>
            Except.ok (((lvls.drop 1).map (fun lv => Val.int lv.1)) ++ [Val.int 100])
      match maxd with
      | Except.error e => Except.error e
      | Except.ok md =>
          match buildLod (lodExt w) lvls md with
          | Except.error e => Except.error e
          | Except.ok entries => Except.ok (Val.dict (dinsert visual "lod" (Val.list entries)))

/-- The bit characters of `['1' if group else '0' for group in
obj.rigid_body.collision_groups[:16]]` (source line 302). -/
def bitChars (g : Fin 20 → Bool) : List Char :=
  ((List.ofFn g).take 16).map (fun b => if b then '1' else '0')

/-- `int(s, 2)` on a digit-character list. -/
def parseBinChars (l : List Char) : Nat :=
  l.foldl (fun acc c => 2 * acc + (if c = '1' then 1 else 0)) 0

/-- `deriveCollision(obj)` (source lines 289-305): the bitmask string is
cut to 16 groups and reversed before base-2 parsing; an object without
rigid-body settings raises the caught `AttributeError` and adds no
`bitmask` key. -/
def deriveCollision (env : Env) (o : Obj) : PyDict :=
  let collision := initObjectProperties o.core.props o.core.name (some "collision")
    (Ign.ofStr "geometry")
  let collision := dinsert collision "geometry" (env.deriveGeometry o)
  let collision := dinsert collision "pose" (env.deriveObjectPose o)
  match o.core.rigid_body with
  | some g => dinsert collision "bitmask"
      (Val.int (Int.ofNat (parseBinChars (bitChars g).reverse)))
  | Option.none => collision

/-- `deriveApproxsphere(obj)` (source lines 308-320); no phobostype, so
all custom properties are copied verbatim. -/
def deriveApproxsphere (o : Obj) : PyDict :=
  let sphere := initObjectProperties o.core.props o.core.name Option.none (Ign.ofList [])
  let sphere := dinsert sphere "radius" (Val.int (o.core.dimensions0 / 2))
  dinsert sphere "center" (Val.list (o.core.loc.map Val.int))

/-- `deriveSensor(obj)` (source lines 323-334); `obj.parent` of a
parentless sensor is `None`, so naming it raises `AttributeError`. -/
def deriveSensor (o : Obj) : Except String Val :=
  let props := initObjectProperties o.core.props o.core.name (some "sensor") (Ign.ofList [])
  match o.ancestors with
  | [] => Except.error "AttributeError: 'NoneType' object has no attribute 'name'"
  | p :: _ => Except.ok (Val.dict (dinsert props "link" (Val.str (getObjectName p Option.none))))

/-- `deriveController(obj)` (source lines 337-346). -/
def deriveController (o : Obj) : PyDict :=
  initObjectProperties o.core.props o.core.name (some "controller") (Ign.ofList [])

/-- Lowercasing as used on the lamp type (source line 363). -/
def strToLower (s : String) : String :=
  String.mk (s.toList.map Char.toLower)

/-- `deriveLight(obj)` (source lines 349-382).  Copying
`light['color_diffuse']` for the specular color raises `KeyError` when
that key was never set; the `'SPOT'` comparison against the lowercased
type is kept exactly as in the source. -/
def deriveLight (o : Obj) : Except String Val :=
  let light := initObjectProperties o.core.props o.core.name (some "light") (Ign.ofList [])
  match o.core.lamp with
  | Option.none => Except.error "AttributeError: object data has no lamp attributes"
  | some ld =>
    let light := if ld.use_diffuse then
        dinsert light "color_diffuse" (Val.list (ld.color.map Val.int))
      else light
    let spec : Except String PyDict :=
      if ld.use_specular then
        match dlookup light "color_diffuse" with
        | some cd => Except.ok (dinsert light "color_specular" cd)
        | Option.none => Except.error "KeyError: 'color_diffuse'"
      else Except.ok light
    match spec with
    | Except.error e => Except.error e
    | Except.ok light =>
      let light := dinsert light "type" (Val.str (strToLower ld.lamptype))
      let light := match dlookup light "type" with
        | some (Val.str t) => if t = "SPOT" then dinsert light "size" (Val.int ld.size) else light
        | _ => light
      let light := dinsert light "position" (Val.list (o.core.loc.map Val.int))
      let light := dinsert light "rotation" (Val.list (o.core.rot.map Val.int))
      let light := match ld.linear_attenuation with
        | some a => dinsert light "attenuation_linear" (Val.int a)
        | Option.none => light
      let light := match ld.quadratic_attenuation with
        | some a => dinsert light "attenuation_quadratic" (Val.int a)
        | Option.none => light
      let light := if ld.energy ≠ 0 then
          dinsert light "attenuation_constant" (Val.int ld.energy)
        else light
      match o.ancestors with
      | [] => Except.ok (Val.dict light)
      | p :: _ => Except.ok (Val.dict (dinsert light "parent"
          (Val.str (getObjectName p (some "link")))))

/-! ### Dispatch, groups, chains (source lines 425-499) -/

/-- Whether an exception message is a `KeyError` (the only class caught
by `deriveDictEntry`). -/
def isKeyError (e : String) : Bool := strStartsWith e "KeyError"

/-- `deriveDictEntry(obj)` (source lines 425-451).  On a caught
`KeyError` the source returns the pair `(None, None)`, modelled by
`Val.list [Val.none, Val.none]`; an unlisted phobostype leaves `props`
unbound, so the final `return props` raises. -/
def deriveDictEntry (env : Env) (w : World) (o : Obj) : Except String Val :=
  let r : Except String Val :=
    match o.core.phobostype with
    | "inertial" => deriveInertial env o
    | "visual" => deriveVisual env w o
    | "collision" => Except.ok (Val.dict (deriveCollision env o))
    | "approxsphere" => Except.ok (Val.dict (deriveApproxsphere o))
    | "sensor" => deriveSensor o
    | "controller" => Except.ok (Val.dict (deriveController o))
    | "light" => deriveLight o
    | _ => Except.error "UnboundLocalError: local variable 'props' referenced before assignment"
  match r with
  | Except.error e =>
      if isKeyError e then Except.ok (Val.list [Val.none, Val.none]) else Except.error e
  | Except.ok v => Except.ok v

/-- `deriveGroupEntry(group)` (source lines 454-468): link members
become `{'type': 'link', 'name': ...}` skeletons, others only print. -/
def deriveGroupEntry (g : Group) : List Val :=
  g.objects.filterMap (fun o =>
    if o.core.phobostype = "link" then
      some (Val.dict [("type", Val.str "link"), ("name", Val.str (getObjectName o.core Option.none))])
    else Option.none)

/-- One chain of `deriveChainEntry`, as a record; `endName` is the
`'end'` key of the source's dict. -/
structure ChainRec where
  name : String
  start : String
  endName : String
  elements : List String

/-- The chain record as the Python dict of source line 483 (with
`start` and `elements` filled in by the loop). -/
def ChainRec.toVal (c : ChainRec) : Val :=
  Val.dict [("name", Val.str c.name), ("start", Val.str c.start),
    ("end", Val.str c.endName), ("elements", Val.list (c.elements.map Val.str))]

/-- The string elements of a list value (`for chainName in chainlist`
with string entries, the only kind the module stores). -/
def strListOf (v : Val) : List String :=
  match v with
  | Val.list l => l.filterMap (fun x => match x with | Val.str s => some s | _ => Option.none)
  | _ => []

/-- The `startChain` names of an object (`'startChain' in parent` and
membership, source lines 491-493). -/
def startChainNames (c : ObjCore) : List String :=
  match dlookup c.props "startChain" with
  | some v => strListOf v
  | Option.none => []

/-- The `while not chainclosed` walk of `deriveChainEntry` (source lines
484-496), recursing along the flattened ancestor chain: reaching an
object without a parent aborts (`chain = None`); stepping to a parent
whose `startChain` holds the chain name closes the chain, appending that
parent's name to the elements and recording it as start. -/
def chainLoop (cn : String) (core : ObjCore) : List ObjCore → Option (List String × String)
  | [] => Option.none
  | p :: rest =>
      if (startChainNames p).contains cn then
        some ([core.name, getObjectName p Option.none], getObjectName p Option.none)
      else
        match chainLoop cn p rest with
        | Option.none => Option.none
        | some (els, st) => some (core.name :: els, st)

/-- `deriveChainEntry(obj)` (source lines 471-499): one chain per name
in the object's `endChain` list, dropping the aborted ones; an object
without `endChain` leaves `chainlist` unbound. -/
def deriveChainEntry (o : Obj) : Except String (List ChainRec) :=
  match dlookup o.core.props "endChain" with
  | Option.none =>
      Except.error "UnboundLocalError: local variable 'chainlist' referenced before assignment"
  | some v =>
      Except.ok ((strListOf v).filterMap (fun cn =>
        match chainLoop cn o.core o.ancestors with
        | Option.none => Option.none
        | some (els, st) =>
            some { name := cn, start := st,
                   endName := getObjectName o.core Option.none, elements := els }))

/-! ### The pose store (source lines 502-596) -/

/-- The inner loop of `storePose` over a root's children (source lines
524-528): selected links contribute the rotation of their pose bone
under their joint name.  The `rotation_mode` assignment only changes the
host's display mode, not the read `rotation_euler.y`, which `boneRotY`
models directly; a link without a bone named `'Bone'` raises. -/
def poseLinksStep (acc : List (String × Int)) : List Obj → Except String (List (String × Int))
  | [] => Except.ok acc
  | link :: rest =>
      if link.core.select && link.core.phobostype == "link" then
        match link.core.boneRotY with
        | some y => poseLinksStep (dinsert acc (getObjectName link.core (some "joint")) y) rest
        | Option.none => Except.error "KeyError: bone 'Bone' not found"
      else poseLinksStep acc rest

/-- The outer loop of `storePose` over the scene roots (source lines
522-528); reading `root['modelname']` of a root without that property
raises `KeyError`. -/
def poseRootsStep (scene : Scene) (robot_name : String) (acc : List (String × Int)) :
    List Obj → Except String (List (String × Int))
  | [] => Except.ok acc
  | root :: rest =>
      match dlookup root.core.props "modelname" with
      | Option.none => Except.error "KeyError: 'modelname'"
      | some v =>
          if (match v with | Val.str s => s == robot_name | _ => false) then
            match poseLinksStep acc (getChildren scene root false true) with
            | Except.error e => Except.error e
            | Except.ok acc2 => poseRootsStep scene robot_name acc2 rest
          else poseRootsStep scene robot_name acc rest

/-- The `new_pose` dict computed by `storePose` from the scene. -/
def newPose (scene : Scene) (robot_name : String) : Except String (List (String × Int)) :=
  poseRootsStep scene robot_name [] (getRoots scene)

/-- The poses currently stored for a robot: the YAML content of its
`robot_poses_` text block, the empty store when the block is empty or
missing (the `load_file == ''` branch shared by `storePose`, `loadPose`
and `get_poses`). -/
def storedPoses (env : Env) (texts : List (String × String)) (robot_name : String) :
    List (String × List (String × Int)) :=
  if readTextFile texts ("robot_poses_" ++ robot_name) = "" then []
  else env.yamlLoad (readTextFile texts ("robot_poses_" ++ robot_name))

/-- `storePose(robot_name, pose_name)` (source lines 502-531), returning
the updated text store.  The pose-mode switching affects only the host
UI state and is not part of the text-store effect. -/
def storePose (env : Env) (scene : Scene) (robot_name pose_name : String) :
    Except String (List (String × String)) :=
  let file_name := "robot_poses_" ++ robot_name
  let lf := readTextFile scene.texts file_name
  let poses := if lf = "" then [] else env.yamlLoad lf
  match newPose scene robot_name with
  | Except.error e => Except.error e
  | Except.ok np =>
      Except.ok (updateTextFile scene.texts file_name (env.yamlDump (dinsert poses pose_name np)))

/-- `get_poses(robot_name)` (source lines 561-572): the stored pose
names, `[]` when nothing is stored. -/
def get_poses (env : Env) (texts : List (String × String)) (robot_name : String) :
    List String :=
  if readTextFile texts ("robot_poses_" ++ robot_name) = "" then []
  else (env.yamlLoad (readTextFile texts ("robot_poses_" ++ robot_name))).map Prod.fst

/-- The per-robot pose dict of `deriveStoredPoses` (source lines
591-594): each pose maps to `{'name': pose, 'joints': poses[pose]}`. -/
def posesToVal (poses : List (String × List (String × Int))) : PyDict :=
  poses.foldl (fun acc pj =>
    dinsert acc pj.1 (Val.dict [("name", Val.str pj.1),
      ("joints", Val.dict (pj.2.map (fun j => (j.1, Val.int j.2))))])) []

/-- The loop of `deriveStoredPoses` over the text blocks (source lines
582-595).  A robot with an empty poses file is mapped to `{}` and then
the `break` of source line 589 leaves the whole loop, skipping every
remaining text block. -/
def storedPosesLoop (env : Env) (texts : List (String × String)) :
    List (String × String) → PyDict → PyDict
  | [], acc => acc
  | (file_name, _) :: rest, acc =>
      if strStartsWith file_name "robot_poses_" then
        let robot_name := strDrop file_name 12
        let poses_file := readTextFile texts file_name
        if poses_file = "" then
          dinsert acc robot_name (Val.dict [])
        else
          storedPosesLoop env texts rest
            (dinsert acc robot_name (Val.dict (posesToVal (env.yamlLoad poses_file))))
      else storedPosesLoop env texts rest acc

/-- `deriveStoredPoses()` (source lines 575-596). -/
def deriveStoredPoses (env : Env) (texts : List (String × String)) : PyDict :=
  storedPosesLoop env texts texts []

/-! ### `buildModelDictionary` (source lines 599-718)

The function body is split into one definition per loop of the source;
`buildRobotDict` is the value of the local `robot` dict as completed at
source line 713, and `buildModelDictionary` is the full function
including the failing final return. -/

/-- Exception propagation (`bindE e f` runs `f` on a success and passes
an exception through). -/
def bindE {α β : Type} (e : Except String α) (f : α → Except String β) : Except String β :=
  match e with
  | Except.error msg => Except.error msg
  | Except.ok a => f a

@[simp] theorem bindE_ok {α β : Type} (a : α) (f : α → Except String β) :
    bindE (Except.ok a) f = f a := rfl

@[simp] theorem bindE_error {α β : Type} (msg : String) (f : α → Except String β) :
    bindE (Except.error msg) f = Except.error msg := rfl

/-- An exception-propagating loop over a list, accumulating a state. -/
def foldE {β α : Type} (f : β → α → Except String β) : β → List α → Except String β
  | acc, [] => Except.ok acc
  | acc, x :: rest =>
      match f acc x with
      | Except.error e => Except.error e
      | Except.ok acc2 => foldE f acc2 rest

/-- `d[k]` expecting a dict: a missing key raises `KeyError`, a non-dict
value makes the subsequent subscript assignment raise. -/
def getDictAt (d : PyDict) (k : String) : Except String PyDict :=
  match dlookup d k with
  | some (Val.dict e) => Except.ok e
  | some _ => Except.error ("TypeError: value at key " ++ k ++ " is not a dict")
  | Option.none => Except.error ("KeyError: '" ++ k ++ "'")

/-- `robot[sec][k] = v` for a top-level section `sec`. -/
def setSection (robot : PyDict) (sec k : String) (v : Val) : Except String PyDict :=
  bindE (getDictAt robot sec) (fun d =>
    Except.ok (dinsert robot sec (Val.dict (dinsert d k v))))

/-- Python uses derived `name` values directly as dict keys; the
embedding's dicts are string-keyed, so non-string names (never produced
by the host UI) are rendered. -/
def valAsKey (v : Val) : String :=
  match v with
  | Val.str s => s
  | Val.int n => toString n
  | Val.bool b => toString b
  | _ => ""

/-- `robot['links'][lname][field] = v`. -/
def setLinkField (robot : PyDict) (lname field : String) (v : Val) : Except String PyDict :=
  bindE (getDictAt robot "links") (fun links =>
  bindE (getDictAt links lname) (fun ld =>
  Except.ok (dinsert robot "links" (Val.dict (dinsert links lname (Val.dict (dinsert ld field v)))))))

/-- One iteration of the link/joint/motor loop (source lines 632-648),
including the inertia lookup `bpy.context.scene.objects['inertial_' +
name]` whose `KeyError` is caught.  The source's `if props is not None`
holds for every value `deriveDictEntry` can produce (including the
`(None, None)` pair), and is modelled by the same check. -/
def linkStep (env : Env) (w : World) (scene : Scene) (robot : PyDict) (link : Obj) :
    Except String PyDict :=
  bindE (deriveKinematics env link) (fun kjm =>
  let lname := valAsKey ((dlookup kjm.1 "name").getD Val.none)
  bindE (setSection robot "links" lname (Val.dict kjm.1)) (fun robot1 =>
  bindE (match kjm.2.1 with
         | some j => setSection robot1 "joints" (valAsKey ((dlookup j "name").getD Val.none)) (Val.dict j)
         | Option.none => Except.ok robot1) (fun robot2 =>
  bindE (match kjm.2.2 with
         | some m => setSection robot2 "motors" (valAsKey ((dlookup m "name").getD Val.none)) (Val.dict m)
         | Option.none => Except.ok robot2) (fun robot3 =>
  match scene.objects.find? (fun io => io.core.name == "inertial_" ++ lname) with
  | Option.none => Except.ok robot3
  | some io =>
      bindE (deriveDictEntry env w io) (fun props =>
        match props with
        | Val.none => Except.ok robot3
        | _ => setLinkField robot3 lname "inertial" props)))))

/-- The link/joint/motor loop (source lines 628-648) over the link
objects of the object list. -/
def linksPass (env : Env) (w : World) (scene : Scene) (robot : PyDict)
    (objectlist : List Obj) : Except String PyDict :=
  foldE (linkStep env w scene) robot
    (objectlist.filter (fun o => o.core.phobostype == "link"))

/-- One iteration of the visual/collision/approxsphere loop (source
lines 652-661): the derived entry is stored under the effective parent
link; a missing parent or link entry raises. -/
def visualStep (env : Env) (w : World) (robot : PyDict) (o : Obj) : Except String PyDict :=
  if o.core.phobostype == "visual" || o.core.phobostype == "collision" then
    bindE (deriveDictEntry env w o) (fun props =>
    match effectiveParent o with
    | Option.none => Except.error "AttributeError: 'NoneType' object has no attribute 'name'"
    | some pcore =>
      let parentname := getObjectName pcore Option.none
      bindE (getDictAt robot "links") (fun links =>
      bindE (getDictAt links parentname) (fun ld =>
      bindE (getDictAt ld o.core.phobostype) (fun sub =>
      Except.ok (dinsert robot "links" (Val.dict (dinsert links parentname (Val.dict
        (dinsert ld o.core.phobostype (Val.dict
          (dinsert sub (getObjectName o.core Option.none) props)))))))))))
  else if o.core.phobostype == "approxsphere" then
    bindE (deriveDictEntry env w o) (fun props =>
    match effectiveParent o with
    | Option.none => Except.error "AttributeError: 'NoneType' object has no attribute 'name'"
    | some pcore =>
      let parentname := getObjectName pcore Option.none
      bindE (getDictAt robot "links") (fun links =>
      bindE (getDictAt links parentname) (fun ld =>
      match dlookup ld "approxcollision" with
      | some (Val.list l) =>
          Except.ok (dinsert robot "links" (Val.dict (dinsert links parentname (Val.dict
            (dinsert ld "approxcollision" (Val.list (l ++ [props])))))))
      | some _ => Except.error "AttributeError: 'approxcollision' value has no append"
      | Option.none => Except.error "KeyError: 'approxcollision'")))
  else Except.ok robot

/-- One `|=` step of the collision-bitmask loop (source line 669): a
missing `bitmask` key raises the caught `KeyError` and is skipped;
Python `bool` is an `int`, so boolean masks are valid operands. -/
def orStep (acc : Int) (kv : String × Val) : Except String Int :=
  match kv.2 with
  | Val.dict cd =>
      (match dlookup cd "bitmask" with
       | some (Val.int m) => Except.ok (Int.lor acc m)
       | some (Val.bool b) => Except.ok (Int.lor acc (if b then 1 else 0))
       | some _ => Except.error "TypeError: unsupported operand type for |"
       | Option.none => Except.ok acc)
  | _ => Except.error "TypeError: collision entry not subscriptable"

/-- The inner fold of the collision-bitmask loop (source lines 666-671). -/
def orFoldE : Int → List (String × Val) → Except String Int
  | acc, [] => Except.ok acc
  | acc, kv :: rest =>
      match orStep acc kv with
      | Except.error e => Except.error e
      | Except.ok acc2 => orFoldE acc2 rest

/-- Adding `collision_bitmask` to one link dict (source lines 665-672). -/
def combineLink (ld : PyDict) : Except String PyDict :=
  match dlookup ld "collision" with
  | some (Val.dict c) =>
      bindE (orFoldE 0 c) (fun m => Except.ok (dinsert ld "collision_bitmask" (Val.int m)))
  | some _ => Except.error "TypeError: link collision not a dict"
  | Option.none => Except.error "KeyError: 'collision'"

/-- The collision-bitmask loop over all links (source lines 664-672). -/
def combineLinks : List (String × Val) → Except String (List (String × Val))
  | [] => Except.ok []
  | (n, v) :: rest =>
      match v with
      | Val.dict ld =>
          bindE (combineLink ld) (fun ld2 =>
          bindE (combineLinks rest) (fun rest2 => Except.ok ((n, Val.dict ld2) :: rest2)))
      | _ => Except.error "TypeError: link entry not a dict"

/-- The collision-bitmask pass (source lines 663-672). -/
def combinePass (robot : PyDict) : Except String PyDict :=
  bindE (getDictAt robot "links") (fun links =>
  bindE (combineLinks links) (fun links2 =>
  Except.ok (dinsert robot "links" (Val.dict links2))))

/-- One iteration of the sensor/controller loop (source lines 676-679). -/
def sensorStep (env : Env) (w : World) (robot : PyDict) (o : Obj) : Except String PyDict :=
  if o.core.phobostype == "sensor" || o.core.phobostype == "controller" then
    bindE (deriveDictEntry env w o) (fun props =>
      setSection robot (o.core.phobostype ++ "s") (getObjectName o.core Option.none) props)
  else Except.ok robot

/-- One iteration of the material linking loop (source lines 684-690),
using the object's direct parent (`obj.parent`). -/
def materialStep (robot : PyDict) (o : Obj) : Except String PyDict :=
  if o.core.phobostype == "visual" then
    match o.core.materials with
    | [] => Except.ok robot
    | mat :: _ =>
        let matname := getMaterialName mat
        bindE (getDictAt robot "materials") (fun mats =>
        let robot := if (dlookup mats matname).isSome then robot
          else dinsert robot "materials" (Val.dict (dinsert mats matname (Val.dict (deriveMaterial mat))))
        match o.ancestors with
        | [] => Except.error "AttributeError: 'NoneType' object has no attribute 'name'"
        | p :: _ =>
            let pn := getObjectName p Option.none
            let vn := getObjectName o.core Option.none
            bindE (getDictAt robot "links") (fun links =>
            bindE (getDictAt links pn) (fun ld =>
            bindE (getDictAt ld "visual") (fun vd =>
            bindE (getDictAt vd vn) (fun ve =>
            Except.ok (dinsert robot "links" (Val.dict (dinsert links pn (Val.dict
              (dinsert ld "visual" (Val.dict (dinsert vd vn (Val.dict
                (dinsert ve "material" (Val.str matname)))))))))))))))
  else Except.ok robot

/-- The material pass (source lines 682-690): `collectMaterials` over
the object list, then per-visual linking. -/
def materialsPass (objectlist : List Obj) (robot : PyDict) : Except String PyDict :=
  let robot := dinsert robot "materials" (Val.dict (collectMaterials objectlist))
  foldE materialStep robot objectlist

/-- The group pass (source lines 693-696). -/
def groupsPass (scene : Scene) (robot : PyDict) : Except String PyDict :=
  foldE (fun robot g =>
    if !g.objects.isEmpty && (getGroupName g != "RigidBodyWorld") then
      setSection robot "groups" (getGroupName g) (Val.list (deriveGroupEntry g))
    else Except.ok robot) robot scene.groups

/-- One iteration of the chain pass (source lines 699-705): link objects
carrying `endChain` contribute their chains, keyed by chain name. -/
def chainStep (robot : PyDict) (o : Obj) : Except String PyDict :=
  if o.core.phobostype == "link" && (dlookup o.core.props "endChain").isSome then
    bindE (deriveChainEntry o) (fun chains =>
      foldE (fun robot ch => setSection robot "chains" ch.name ch.toVal) robot chains)
  else Except.ok robot

/-- One iteration of the light pass (source lines 709-711). -/
def lightStep (robot : PyDict) (o : Obj) : Except String PyDict :=
  if o.core.phobostype == "light" then
    bindE (deriveLight o) (fun l => setSection robot "lights" (getObjectName o.core Option.none) l)
  else Except.ok robot

/-- The initial `robot` dict literal (source lines 605-615). -/
def initialRobot : PyDict :=
  [("links", Val.dict []), ("joints", Val.dict []), ("poses", Val.dict []),
   ("sensors", Val.dict []), ("motors", Val.dict []), ("controllers", Val.dict []),
   ("materials", Val.dict []), ("lights", Val.dict []), ("groups", Val.dict []),
   ("chains", Val.dict [])]

/-- The `robot` dict as completed at source line 713: the initial
literal, the timestamp, the root check with `modelname`, and every loop
of the function body in source order, ending with the stored poses. -/
def buildRobotDict (env : Env) (scene : Scene) (root : Obj) : Except String PyDict :=
  let robot := dinsert initialRobot "date" (Val.str env.now)
  if root.core.phobostype ≠ "link" then Except.error msgNoLinkRoot
  else
    let robot := match dlookup root.core.props "modelname" with
      | some v => dinsert robot "modelname" v
      | Option.none => dinsert robot "modelname" (Val.str "unnamed_robot")
    let objectlist := getChildren scene root true false
    bindE (linksPass env scene.world scene robot objectlist) (fun robot1 =>
    bindE (foldE (visualStep env scene.world) robot1 objectlist) (fun robot2 =>
    bindE (combinePass robot2) (fun robot3 =>
    bindE (foldE (sensorStep env scene.world) robot3 objectlist) (fun robot4 =>
    bindE (materialsPass objectlist robot4) (fun robot5 =>
    bindE (groupsPass scene robot5) (fun robot6 =>
    bindE (foldE chainStep robot6 objectlist) (fun robot7 =>
    bindE (foldE lightStep robot7 objectlist) (fun robot8 =>
    Except.ok (dinsert robot8 "poses" (Val.dict (deriveStoredPoses env scene.texts)))))))))))

/-- `buildModelDictionary(root)` (source lines 599-718): after building
`robot`, the return statement evaluates `gUtils.epsilonToZero`, a name
the module never binds, so the call raises `NameError` and the function
never returns its dictionary. -/
def buildModelDictionary (env : Env) (scene : Scene) (root : Obj) :
    Except String (PyDict × List Obj) :=
  bindE (buildRobotDict env scene root) (fun _ => Except.error msgGUtils)

/-! ### Concrete instances used to evaluate the embedding -/

/-- A world with default export flags. -/
def world0 : World :=
  { useObj := false, useBobj := false, useStl := false, useDae := false, decimalPlaces := 6 }

/-- A concrete environment: fixed timestamp, trivial pose/geometry
callbacks, a revolute joint-type classifier, no joint constraints, and a
YAML codec that is only consulted where a theorem's hypotheses pin its
values. -/
def defEnv : Env where
  now := "20260101_00:00"
  deriveObjectPose := fun _ => Val.dict []
  deriveGeometry := fun _ => Val.dict []
  deriveJointType := fun _ => ("revolute", Val.none)
  getJointConstraints := fun _ => (Option.none, Option.none)
  yamlLoad := fun _ => []
  yamlDump := fun _ => "yaml"

/-- A selected, visible object core with the given name, phobostype and
custom properties and no other host data. -/
def mkCore (n pt : String) (props : List (String × Val)) : ObjCore where
  name := n
  phobostype := pt
  props := props
  select := true
  hide := false
  rigid_body := Option.none
  materials := []
  lamp := Option.none
  lod_levels := []
  dimensions0 := 1
  loc := [0, 0, 0]
  rot := [0, 0, 0]
  boneRotY := some 0

/-- A one-object scene: a selected root link named `root` with a
`modelname` property. -/
def rootT : Obj := ⟨mkCore "root" "link" [("modelname", Val.str "testbot")], []⟩

/-- The scene holding only `rootT`. -/
def sceneT : Scene := ⟨[rootT], [], [], world0⟩

/-- The twelve top-level keys named by the spec. -/
def modelKeys : List String :=
  ["links", "joints", "poses", "sensors", "motors", "controllers",
   "materials", "lights", "groups", "chains", "modelname", "date"]

/-! ### Claim C9 -/

/-- Claim C9: for every root object whose phobostype is not `'link'`,
`buildModelDictionary` raises an exception with the message `Found no
'link' object as root of the robot model.` and produces no model
dictionary. -/
theorem C9_root_not_link_raises (env : Env) (scene : Scene) (root : Obj)
    (h : root.core.phobostype ≠ "link") :
    buildModelDictionary env scene root = Except.error msgNoLinkRoot ∧
      msgNoLinkRoot = "Found no 'link' object as root of the robot model." := by
  refine ⟨?_, rfl⟩
  unfold buildModelDictionary buildRobotDict
  rw [if_pos h]
  rfl

/-- Witness for C9: a root of phobostype `'visual'`. -/
theorem C9_witness :
    buildModelDictionary defEnv sceneT ⟨mkCore "v" "visual" [], []⟩ = Except.error msgNoLinkRoot ∧
      msgNoLinkRoot = "Found no 'link' object as root of the robot model." :=
  C9_root_not_link_raises defEnv sceneT ⟨mkCore "v" "visual" [], []⟩ (by decide)

/-! ### Claim C1 -/

/-- Claim C1 (code bug): on a scene whose root is a link object, the
function builds the dictionary with all twelve top-level keys, but the
final return of `buildModelDictionary` evaluates the unbound name
`gUtils` (source line 718), so it raises `NameError` and no dictionary
is returned. -/
theorem C1_gUtils_NameError :
    buildModelDictionary defEnv sceneT rootT = Except.error msgGUtils ∧
      msgGUtils = "NameError: name 'gUtils' is not defined" ∧
      (match buildRobotDict defEnv sceneT rootT with
       | Except.ok d => modelKeys.all (fun k => (dlookup d k).isSome)
       | Except.error _ => false) = true :=
  ⟨rfl, rfl, rfl⟩

/-! ### Claim C2 -/

/-- The value of a bit list, least significant bit first. -/
def natOfBits : List Bool → Nat
  | [] => 0
  | b :: rest => (if b then 1 else 0) + 2 * natOfBits rest

theorem parseBin_foldl (l : List Bool) (acc : Nat) :
    ((l.map (fun b => if b then '1' else '0')).reverse).foldl
      (fun a c => 2 * a + (if c = '1' then 1 else 0)) acc
      = acc * 2 ^ l.length + natOfBits l := by
  induction l generalizing acc with
  | nil => simp [natOfBits]
  | cons b t ih =>
      simp only [List.map_cons, List.reverse_cons, List.foldl_append, List.foldl_cons,
        List.foldl_nil]
      rw [ih]
      cases b with
      | true =>
          simp only [if_pos rfl, natOfBits]
          ring_nf
          simp [pow_succ]
          ring
      | false =>
          have h0 : ¬ ('0' = '1') := by decide
          simp only [if_neg h0, natOfBits]
          ring_nf
          simp [pow_succ]
          ring

theorem parseBinChars_reverse (l : List Bool) :
    parseBinChars ((l.map (fun b => if b then '1' else '0')).reverse) = natOfBits l := by
  have h := parseBin_foldl l 0
  simpa [parseBinChars] using h

theorem natOfBits_testBit (l : List Bool) (i : Nat) :
    (natOfBits l).testBit i = l.getD i false := by
  induction l generalizing i with
  | nil => simp [natOfBits]
  | cons b t ih =>
      have hbit : natOfBits (b :: t) = Nat.bit b (natOfBits t) := by
        cases b
        · simp [natOfBits, Nat.bit]
        · simp [natOfBits, Nat.bit]
          ring
      cases i with
      | zero => rw [hbit]; simp [Nat.testBit_bit_zero]
      | succ j => rw [hbit]; simp [Nat.testBit_bit_succ, ih]

/-- Claim C2 (amended): for a collision object with rigid-body settings
the `bitmask` value's bit `i` (`i < 16`) is set exactly when collision
group `i` is enabled and higher bits are clear; for an object without
rigid-body settings `deriveCollision` adds no `bitmask` key, so the
result lacks one whenever the object's custom properties do not already
supply one. -/
theorem C2_bitmask (env : Env) (o1 o2 : Obj) (g : Fin 20 → Bool)
    (h1 : o1.core.rigid_body = some g) (h2 : o2.core.rigid_body = Option.none)
    (h3 : dlookup (initObjectProperties o2.core.props o2.core.name (some "collision")
      (Ign.ofStr "geometry")) "bitmask" = Option.none) :
    (∃ m : Nat, dlookup (deriveCollision env o1) "bitmask" = some (Val.int (Int.ofNat m)) ∧
      (∀ i : Nat, ∀ hi : i < 20, i < 16 → m.testBit i = g ⟨i, hi⟩) ∧
      (∀ i : Nat, 16 ≤ i → m.testBit i = false)) ∧
    dlookup (deriveCollision env o2) "bitmask" = Option.none := by
  constructor
  · refine ⟨parseBinChars (bitChars g).reverse, ?_, ?_, ?_⟩
    · unfold deriveCollision
      rw [h1]
      exact dlookup_dinsert_self _ _ _
    · intro i hi h16
      have hrev : (bitChars g).reverse = (((List.ofFn g).take 16).map
          (fun b => if b then '1' else '0')).reverse := rfl
      rw [hrev, parseBinChars_reverse, natOfBits_testBit]
      have hlen : (((List.ofFn g).take 16)).length = 16 := by
        simp [List.length_take, List.length_ofFn]
      rw [List.getD_eq_getElem _ _ (by omega)]
      rw [List.getElem_take]
      rw [List.getElem_ofFn]
    · intro i h16
      have hrev : (bitChars g).reverse = (((List.ofFn g).take 16).map
          (fun b => if b then '1' else '0')).reverse := rfl
      rw [hrev, parseBinChars_reverse, natOfBits_testBit]
      have hlen : ((List.ofFn g).take 16).length = 16 := by
        simp [List.length_take, List.length_ofFn]
      rw [List.getD_eq_getElem?_getD]
      rw [List.getElem?_eq_none (by omega)]
      rfl
  · unfold deriveCollision
    rw [h2]
    rw [dlookup_dinsert_ne _ _ _ _ (by decide)]
    rw [dlookup_dinsert_ne _ _ _ _ (by decide)]
    exact h3

/-- A collision object with collision groups 0 and 2 enabled. -/
def gC2 : Fin 20 → Bool := fun i => i.val == 0 || i.val == 2

/-- A collision object with rigid-body settings. -/
def objC2a : Obj := ⟨{ mkCore "ca" "collision" [] with rigid_body := some gC2 }, []⟩

/-- A collision object without rigid-body settings or custom bitmask. -/
def objC2b : Obj := ⟨mkCore "cb" "collision" [], []⟩

/-- Witness for C2 at the concrete collision objects. -/
theorem C2_bitmask_witness :
    (∃ m : Nat, dlookup (deriveCollision defEnv objC2a) "bitmask" = some (Val.int (Int.ofNat m)) ∧
      (∀ i : Nat, ∀ hi : i < 20, i < 16 → m.testBit i = gC2 ⟨i, hi⟩) ∧
      (∀ i : Nat, 16 ≤ i → m.testBit i = false)) ∧
    dlookup (deriveCollision defEnv objC2b) "bitmask" = Option.none :=
  C2_bitmask defEnv objC2a objC2b gC2 rfl rfl rfl

/-- A collision object without rigid-body settings whose custom
`collision/bitmask` property survives into the returned dict. -/
def objC2c : Obj := ⟨mkCore "cc" "collision" [("collision/bitmask", Val.int 5)], []⟩

/-- Counterexample to C2 as stated: this collision object has no
rigid-body settings, yet the dictionary returned by `deriveCollision`
has a `bitmask` key (the value 5 copied from the custom property by
`initObjectProperties`). -/
theorem C2_counterexample :
    objC2c.core.rigid_body = Option.none ∧
      ¬ dlookup (deriveCollision defEnv objC2c) "bitmask" = Option.none := by
  refine ⟨rfl, ?_⟩
  intro h
  have h2 : (some (Val.int 5) : Option Val) = Option.none := h
  exact Option.noConfusion h2

/-! ### Claims C4 and C5 -/

theorem chainLoop_of_find (cn : String) (anc : List ObjCore) (a : ObjCore)
    (hfind : anc.find? (fun x => (startChainNames x).contains cn) = some a) :
    ∀ core : ObjCore, chainLoop cn core anc = some
      ((core.name :: (anc.takeWhile
          (fun x => !(startChainNames x).contains cn)).map ObjCore.name)
        ++ [getObjectName a Option.none], getObjectName a Option.none) := by
  induction anc with
  | nil => simp [List.find?] at hfind
  | cons p rest ih =>
      intro core
      have hfind2 : (match (startChainNames p).contains cn with
          | true => some p
          | false => List.find? (fun x => (startChainNames x).contains cn) rest) = some a :=
        hfind
      by_cases hp : (startChainNames p).contains cn
      · rw [hp] at hfind2
        have ha : p = a := Option.some.inj hfind2
        subst ha
        have htw : List.takeWhile (fun x => !(startChainNames x).contains cn) (p :: rest)
            = [] := by
          rw [List.takeWhile_cons, hp]
          rfl
        simp only [chainLoop]
        rw [if_pos hp, htw]
        rfl
      · have hpf : (startChainNames p).contains cn = false := by
          simpa using hp
        rw [hpf] at hfind2
        have hr := ih hfind2 p
        have htw : List.takeWhile (fun x => !(startChainNames x).contains cn) (p :: rest)
            = p :: List.takeWhile (fun x => !(startChainNames x).contains cn) rest := by
          rw [List.takeWhile_cons, hpf]
          rfl
        simp only [chainLoop]
        rw [if_neg (by rw [hpf]; exact Bool.false_ne_true), hr, htw]
        rfl

theorem chainLoop_of_find_none (cn : String) (anc : List ObjCore)
    (hfind : anc.find? (fun x => (startChainNames x).contains cn) = Option.none) :
    ∀ core : ObjCore, chainLoop cn core anc = Option.none := by
  induction anc with
  | nil => intro core; rfl
  | cons p rest ih =>
      intro core
      have hfind2 : (match (startChainNames p).contains cn with
          | true => some p
          | false => List.find? (fun x => (startChainNames x).contains cn) rest)
          = (Option.none : Option ObjCore) :=
        hfind
      by_cases hp : (startChainNames p).contains cn
      · rw [hp] at hfind2
        exact Option.noConfusion hfind2
      · have hpf : (startChainNames p).contains cn = false := by
          simpa using hp
        rw [hpf] at hfind2
        simp only [chainLoop]
        rw [if_neg (by rw [hpf]; exact Bool.false_ne_true), ih hfind2 p]

/-- Claim C4: for an object carrying an `endChain` list and a chain name
in it, when walking up the parent links reaches an ancestor whose
`startChain` holds the name (`a`, found first), `deriveChainEntry`
returns a chain whose `end` is the object's name, whose elements are the
names collected on the way up in end-to-start order, and whose `start`
is that ancestor's name, which is also the last element. -/
theorem C4_chain (o : Obj) (cn : String) (ec : Val) (a : ObjCore)
    (hec : dlookup o.core.props "endChain" = some ec)
    (hcn : cn ∈ strListOf ec)
    (hfind : o.ancestors.find? (fun x => (startChainNames x).contains cn) = some a) :
    ∃ chains, deriveChainEntry o = Except.ok chains ∧ ∃ ch ∈ chains,
      ch.name = cn ∧ ch.endName = getObjectName o.core Option.none ∧
      ch.start = getObjectName a Option.none ∧
      ch.elements = (o.core.name :: (o.ancestors.takeWhile
          (fun x => !(startChainNames x).contains cn)).map ObjCore.name)
        ++ [getObjectName a Option.none] ∧
      ch.elements.getLast? = some ch.start := by
  have hloop := chainLoop_of_find cn o.ancestors a hfind o.core
  have hchains : deriveChainEntry o = Except.ok ((strListOf ec).filterMap (fun cn' =>
      match chainLoop cn' o.core o.ancestors with
      | Option.none => Option.none
      | some (els, st) =>
          some (ChainRec.mk cn' st (getObjectName o.core Option.none) els))) := by
    unfold deriveChainEntry
    rw [hec]
  refine ⟨_, hchains, ?_⟩
  · refine ⟨ChainRec.mk cn (getObjectName a Option.none)
        (getObjectName o.core Option.none)
        ((o.core.name :: (o.ancestors.takeWhile
            (fun x => !(startChainNames x).contains cn)).map ObjCore.name)
          ++ [getObjectName a Option.none]), ?_, rfl, rfl, rfl, rfl, ?_⟩
    · rw [List.mem_filterMap]
      refine ⟨cn, hcn, ?_⟩
      rw [hloop]
    · exact List.getLast?_concat _

/-- Claim C5: when the walk up the parent links reaches a parentless
object before finding an ancestor whose `startChain` holds the chain
name, `deriveChainEntry` omits that chain entirely: no chain of that
name appears in the result. -/
theorem C5_unclosed_chain_omitted (o : Obj) (cn : String) (ec : Val)
    (hec : dlookup o.core.props "endChain" = some ec)
    (hcn : cn ∈ strListOf ec)
    (hfind : o.ancestors.find? (fun x => (startChainNames x).contains cn) = Option.none) :
    ∃ chains, deriveChainEntry o = Except.ok chains ∧ ∀ ch ∈ chains, ch.name ≠ cn := by
  have hchains : deriveChainEntry o = Except.ok ((strListOf ec).filterMap (fun cn' =>
      match chainLoop cn' o.core o.ancestors with
      | Option.none => Option.none
      | some (els, st) =>
          some (ChainRec.mk cn' st (getObjectName o.core Option.none) els))) := by
    unfold deriveChainEntry
    rw [hec]
  refine ⟨_, hchains, ?_⟩
  · intro ch hch
    rw [List.mem_filterMap] at hch
    obtain ⟨cn', hcn', hstep⟩ := hch
    by_cases heq : cn' = cn
    · subst heq
      rw [chainLoop_of_find_none cn' o.ancestors hfind o.core] at hstep
      exact Option.noConfusion hstep
    · intro hname
      apply heq
      cases hloop : chainLoop cn' o.core o.ancestors with
      | none => rw [hloop] at hstep; exact Option.noConfusion hstep
      | some els =>
          rw [hloop] at hstep
          have := Option.some.inj hstep
          rw [← hname, ← this]

/-- The start link of the concrete test chain. -/
def startCore : ObjCore := mkCore "shoulder" "link" [("startChain", Val.list [Val.str "arm"])]

/-- An intermediate link of the concrete test chain. -/
def midCore : ObjCore := mkCore "elbow" "link" []

/-- The end object of the concrete test chain. -/
def endObjC4 : Obj := ⟨mkCore "hand" "link" [("endChain", Val.list [Val.str "arm"])], [midCore, startCore]⟩

/-- Witness for C4 on the hand-elbow-shoulder chain. -/
theorem C4_chain_witness :
    ∃ chains, deriveChainEntry endObjC4 = Except.ok chains ∧ ∃ ch ∈ chains,
      ch.name = "arm" ∧ ch.endName = getObjectName endObjC4.core Option.none ∧
      ch.start = getObjectName startCore Option.none ∧
      ch.elements = (endObjC4.core.name :: (endObjC4.ancestors.takeWhile
          (fun x => !(startChainNames x).contains "arm")).map ObjCore.name)
        ++ [getObjectName startCore Option.none] ∧
      ch.elements.getLast? = some ch.start :=
  C4_chain endObjC4 "arm" (Val.list [Val.str "arm"]) startCore rfl (by decide) rfl

/-- An end object whose chain never reaches a matching start. -/
def endObjC5 : Obj := ⟨mkCore "hand2" "link" [("endChain", Val.list [Val.str "leg"])], [midCore]⟩

/-- Witness for C5 on a chain whose start is missing. -/
theorem C5_witness :
    ∃ chains, deriveChainEntry endObjC5 = Except.ok chains ∧ ∀ ch ∈ chains, ch.name ≠ "leg" :=
  C5_unclosed_chain_omitted endObjC5 "leg" (Val.list [Val.str "leg"]) rfl (by decide) rfl

/-! ### Claim C8 -/

/-- An environment whose YAML loader yields one pose for the content
`posesB`. -/
def envC8 : Env :=
  { defEnv with yamlLoad := fun s => if s = "posesB" then [("wave", [("j1", 1)])] else [] }

/-- Two stored-poses text blocks: robot `a` with an empty file, robot
`b` with a non-empty one, in that order. -/
def textsC8 : List (String × String) :=
  [("robot_poses_a", ""), ("robot_poses_b", "posesB")]

/-- Claim C8 (code bug): robot `a`'s empty poses file maps it to the
empty dict, but the `break` of source line 589 then leaves the loop over
all text blocks, so robot `b` is missing from the result even though it
has a stored-poses text block. -/
theorem C8_break_skips_robots :
    deriveStoredPoses envC8 textsC8 = [("a", Val.dict [])] ∧
      dlookup (deriveStoredPoses envC8 textsC8) "b" = Option.none :=
  ⟨rfl, rfl⟩

/-! ### Claim C7 -/

theorem get_poses_eq_keys (env : Env) (texts : List (String × String)) (r : String) :
    get_poses env texts r = (storedPoses env texts r).map Prod.fst := by
  unfold get_poses storedPoses
  by_cases h : readTextFile texts ("robot_poses_" ++ r) = ""
  · rw [if_pos h, if_pos h]
    rfl
  · rw [if_neg h, if_neg h]

theorem readTextFile_update_self (texts : List (String × String)) (n c : String) :
    readTextFile (updateTextFile texts n c) n = c := by
  unfold readTextFile updateTextFile
  rw [dlookup_dinsert_self]
  rfl

theorem storedPoses_update (env : Env) (texts : List (String × String)) (r c : String)
    (hc : c ≠ "") :
    storedPoses env (updateTextFile texts ("robot_poses_" ++ r) c) r = env.yamlLoad c := by
  unfold storedPoses
  rw [readTextFile_update_self]
  rw [if_neg hc]

/-- Claim C7: stored poses round-trip through the flat text/YAML store.
After `storePose(r, p)` the stored poses for `r` are the previous ones
with `p` bound to the freshly read pose: `p` is among `get_poses(r)`,
every previously stored pose name is still there, and the pose stored
under `p` is the new one (overwriting any earlier pose of that name).
The two YAML hypotheses pin the external codec on the single document
this run writes: loading what was dumped gives the dict back, and the
dump is not the empty string. -/
theorem C7_storePose_roundtrip (env : Env) (scene : Scene) (r p : String)
    (np : List (String × Int))
    (hnp : newPose scene r = Except.ok np)
    (hload : env.yamlLoad (env.yamlDump (dinsert (storedPoses env scene.texts r) p np))
      = dinsert (storedPoses env scene.texts r) p np)
    (hne : env.yamlDump (dinsert (storedPoses env scene.texts r) p np) ≠ "") :
    ∃ texts2, storePose env scene r p = Except.ok texts2 ∧
      storedPoses env texts2 r = dinsert (storedPoses env scene.texts r) p np ∧
      p ∈ get_poses env texts2 r ∧
      (∀ q ∈ get_poses env scene.texts r, q ∈ get_poses env texts2 r) ∧
      dlookup (storedPoses env texts2 r) p = some np := by
  refine ⟨updateTextFile scene.texts ("robot_poses_" ++ r)
      (env.yamlDump (dinsert (storedPoses env scene.texts r) p np)), ?_, ?_⟩
  · unfold storePose
    rw [hnp]
    rfl
  · have hstored : storedPoses env (updateTextFile scene.texts ("robot_poses_" ++ r)
        (env.yamlDump (dinsert (storedPoses env scene.texts r) p np))) r
        = dinsert (storedPoses env scene.texts r) p np := by
      rw [storedPoses_update env scene.texts r _ hne]
      exact hload
    refine ⟨hstored, ?_, ?_, ?_⟩
    · rw [get_poses_eq_keys, hstored]
      exact mem_keys_dinsert_self _ _ _
    · intro q hq
      rw [get_poses_eq_keys, hstored]
      rw [get_poses_eq_keys] at hq
      exact mem_keys_dinsert_of_mem _ _ _ _ hq
    · rw [hstored]
      exact dlookup_dinsert_self _ _ _

/-- A one-link robot scene for the pose store. -/
def rootC7 : Obj := ⟨mkCore "base" "link" [("modelname", Val.str "r1")], []⟩

/-- The scene holding `rootC7` with an empty text store. -/
def sceneC7 : Scene := ⟨[rootC7], [], [], world0⟩

/-- A YAML codec pinned on the single document this test writes. -/
def envC7 : Env :=
  { defEnv with yamlLoad := fun _ => [("p1", [("base", 0)])], yamlDump := fun _ => "Y" }

/-- Witness for C7: storing pose `p1` of robot `r1` on the one-link
scene. -/
theorem C7_witness :
    ∃ texts2, storePose envC7 sceneC7 "r1" "p1" = Except.ok texts2 ∧
      storedPoses envC7 texts2 "r1"
        = dinsert (storedPoses envC7 sceneC7.texts "r1") "p1" [("base", 0)] ∧
      "p1" ∈ get_poses envC7 texts2 "r1" ∧
      (∀ q ∈ get_poses envC7 sceneC7.texts "r1", q ∈ get_poses envC7 texts2 "r1") ∧
      dlookup (storedPoses envC7 texts2 "r1") "p1" = some [("base", 0)] :=
  C7_storePose_roundtrip envC7 sceneC7 "r1" "p1" [("base", 0)] rfl rfl (by decide)

/-! ### Claim C10 -/

/-- Whether an object is a visual whose first material slot holds a
material named `n`. -/
def matchVis (o : Obj) (n : String) : Bool :=
  o.core.phobostype == "visual" && (match o.core.materials with
    | [] => false
    | m :: _ => m.name == n)

/-- The number of objects in the list that are visuals whose first
material slot holds a material named `n`. -/
def countFirstMat (l : List Obj) (n : String) : Nat :=
  (l.filter (fun o => matchVis o n)).length

theorem countFirstMat_cons (o : Obj) (t : List Obj) (n : String) :
    countFirstMat (o :: t) n = (if matchVis o n then 1 else 0) + countFirstMat t n := by
  by_cases h : matchVis o n
  · simp [countFirstMat, List.filter_cons, h, Nat.add_comm]
  · simp [countFirstMat, List.filter_cons, h]

/-- The `users` count recorded under key `n`, when the entry is a dict
with an integer `users` field. -/
def usersAt (d : PyDict) (n : String) : Option Int :=
  match dlookup d n with
  | some (Val.dict e) =>
      (match dlookup e "users" with
       | some (Val.int m) => some m
       | _ => Option.none)
  | _ => Option.none

/-- The invariant of the `collectMaterials` accumulator: every entry is
a dict carrying an integer `users` field. -/
def accWF (acc : PyDict) : Prop :=
  ∀ k v, dlookup acc k = some v →
    ∃ e m, v = Val.dict e ∧ dlookup e "users" = some (Val.int m)

theorem accWF_nil : accWF [] := by
  intro k v hv
  simp [dlookup] at hv

theorem accWF_dinsert (acc : PyDict) (k : String) (e : PyDict) (m : Int)
    (hwf : accWF acc) (he : dlookup e "users" = some (Val.int m)) :
    accWF (dinsert acc k (Val.dict e)) := by
  intro k' v hv
  by_cases hk : k = k'
  · subst hk
    rw [dlookup_dinsert_self] at hv
    exact ⟨e, m, (Option.some.inj hv).symm, he⟩
  · rw [dlookup_dinsert_ne _ _ _ _ hk] at hv
    exact hwf k' v hv

theorem collectStep_not_visual (acc : PyDict) (o : Obj)
    (h : ¬ o.core.phobostype = "visual") : collectStep acc o = acc := by
  unfold collectStep
  rw [if_neg h]

theorem collectStep_no_mats (acc : PyDict) (o : Obj)
    (h : o.core.phobostype = "visual") (hm : o.core.materials = []) :
    collectStep acc o = acc := by
  unfold collectStep
  rw [if_pos h, hm]

theorem collectStep_new (acc : PyDict) (o : Obj) (mat : Mat) (rest : List Mat)
    (h : o.core.phobostype = "visual") (hm : o.core.materials = mat :: rest)
    (hl : dlookup acc mat.name = Option.none) :
    collectStep acc o
      = dinsert acc mat.name (Val.dict (dinsert (deriveMaterial mat) "users" (Val.int 1))) := by
  unfold collectStep
  rw [if_pos h, hm]
  show collectVisualMat acc mat = _
  unfold collectVisualMat
  rw [hl]

theorem collectStep_inc (acc : PyDict) (o : Obj) (mat : Mat) (rest : List Mat)
    (e : PyDict) (m : Int)
    (h : o.core.phobostype = "visual") (hm : o.core.materials = mat :: rest)
    (hl : dlookup acc mat.name = some (Val.dict e))
    (hu : dlookup e "users" = some (Val.int m)) :
    collectStep acc o
      = dinsert acc mat.name (Val.dict (dinsert e "users" (Val.int (m + 1)))) := by
  unfold collectStep
  rw [if_pos h, hm]
  show collectVisualMat acc mat = _
  unfold collectVisualMat
  rw [hl]
  show (match dlookup e "users" with
    | some (Val.int n) => dinsert acc mat.name (Val.dict (dinsert e "users" (Val.int (n + 1))))
    | _ => acc) = _
  rw [hu]

theorem usersAt_dinsert_self (acc : PyDict) (k : String) (e : PyDict) :
    usersAt (dinsert acc k (Val.dict e)) k
      = (match dlookup e "users" with
         | some (Val.int m) => some m
         | _ => Option.none) := by
  unfold usersAt
  rw [dlookup_dinsert_self]

theorem usersAt_dinsert_ne (acc : PyDict) (k k' : String) (v : Val) (h : k ≠ k') :
    usersAt (dinsert acc k v) k' = usersAt acc k' := by
  unfold usersAt
  rw [dlookup_dinsert_ne _ _ _ _ h]

/-- One step of `collectMaterials`: the accumulator stays well formed,
and the `users` count at `n` increments exactly when the object is a
visual whose first material is named `n` (starting from 1 when the name
is new). -/
theorem collectStep_users (acc : PyDict) (hwf : accWF acc) (o : Obj) (n : String) :
    accWF (collectStep acc o) ∧
    usersAt (collectStep acc o) n =
      (if matchVis o n then
        (match usersAt acc n with
         | some m => some (m + 1)
         | Option.none => (some 1 : Option Int))
       else usersAt acc n) := by
  by_cases hv : o.core.phobostype = "visual"
  · cases hm : o.core.materials with
    | nil =>
        have hmv : matchVis o n = false := by
          simp [matchVis, hm]
        rw [collectStep_no_mats acc o hv hm, hmv]
        exact ⟨hwf, by simp⟩
    | cons mat rest =>
        have hbv : (o.core.phobostype == "visual") = true := by
          simp [hv]
        by_cases hname : mat.name = n
        · have hmv : matchVis o n = true := by
            simp [matchVis, hm, hbv, hname]
          cases hl : dlookup acc mat.name with
          | none =>
              rw [collectStep_new acc o mat rest hv hm hl]
              have husers : usersAt acc n = Option.none := by
                unfold usersAt
                rw [← hname, hl]
              constructor
              · exact accWF_dinsert acc mat.name _ 1 hwf (dlookup_dinsert_self _ _ _)
              · rw [hname, usersAt_dinsert_self, dlookup_dinsert_self, hmv, husers]
                rfl
          | some v =>
              obtain ⟨e, m, hve, hu⟩ := hwf mat.name v hl
              subst hve
              rw [collectStep_inc acc o mat rest e m hv hm hl hu]
              have husers : usersAt acc n = some m := by
                unfold usersAt
                rw [← hname, hl]
                show (match dlookup e "users" with
                  | some (Val.int m) => some m
                  | _ => Option.none) = some m
                rw [hu]
              constructor
              · exact accWF_dinsert acc mat.name _ (m + 1) hwf (dlookup_dinsert_self _ _ _)
              · rw [hname, usersAt_dinsert_self, dlookup_dinsert_self, hmv, husers]
                rfl
        · have hmv : matchVis o n = false := by
            simp [matchVis, hm, hname]
          cases hl : dlookup acc mat.name with
          | none =>
              rw [collectStep_new acc o mat rest hv hm hl]
              constructor
              · exact accWF_dinsert acc mat.name _ 1 hwf (dlookup_dinsert_self _ _ _)
              · rw [usersAt_dinsert_ne _ _ _ _ hname, hmv]
                simp
          | some v =>
              obtain ⟨e, m, hve, hu⟩ := hwf mat.name v hl
              subst hve
              rw [collectStep_inc acc o mat rest e m hv hm hl hu]
              constructor
              · exact accWF_dinsert acc mat.name _ (m + 1) hwf (dlookup_dinsert_self _ _ _)
              · rw [usersAt_dinsert_ne _ _ _ _ hname, hmv]
                simp
  · have hmv : matchVis o n = false := by
      simp [matchVis, hv]
    rw [collectStep_not_visual acc o hv, hmv]
    exact ⟨hwf, by simp⟩

/-- The fold of `collectMaterials` over any well-formed accumulator. -/
theorem collect_go (l : List Obj) : ∀ acc : PyDict, accWF acc → ∀ n : String,
    accWF (l.foldl collectStep acc) ∧
    usersAt (l.foldl collectStep acc) n = (match usersAt acc n with
      | some m => some (m + Int.ofNat (countFirstMat l n))
      | Option.none => if countFirstMat l n = 0 then Option.none
                       else some (Int.ofNat (countFirstMat l n))) := by
  induction l with
  | nil =>
      intro acc hwf n
      refine ⟨hwf, ?_⟩
      cases husers : usersAt acc n
      · simp [countFirstMat, husers]
      · simp [countFirstMat, husers]
  | cons o t ih =>
      intro acc hwf n
      rw [List.foldl_cons]
      obtain ⟨hwf2, hstep⟩ := collectStep_users acc hwf o n
      obtain ⟨hwf3, hrec⟩ := ih (collectStep acc o) hwf2 n
      refine ⟨hwf3, ?_⟩
      rw [hrec, hstep, countFirstMat_cons]
      by_cases hmv : matchVis o n
      · rw [hmv]
        cases husers : usersAt acc n with
        | none =>
            have hne : ¬ ((1 : Nat) + countFirstMat t n = 0) := by omega
            simp only [eq_self_iff_true, if_true, if_neg hne]
            rfl
        | some m =>
            have harith : m + 1 + Int.ofNat (countFirstMat t n)
                = m + Int.ofNat (1 + countFirstMat t n) := by
              show m + 1 + Int.ofNat (countFirstMat t n)
                = m + (1 + Int.ofNat (countFirstMat t n))
              ring
            simp only [eq_self_iff_true, if_true]
            rw [harith]
      · have hmvf : matchVis o n = false := by
          simpa using hmv
        rw [hmvf]
        cases husers : usersAt acc n with
        | none => simp
        | some m => simp

/-- Claim C10: `collectMaterials` is keyed by material name, and each
entry's `users` field counts the objects of the list that are visuals
whose first material slot holds a material of that name; a name is a
key exactly when that count is positive. -/
theorem C10_collectMaterials (l : List Obj) (n : String) :
    usersAt (collectMaterials l) n = (if countFirstMat l n = 0 then Option.none
      else some (Int.ofNat (countFirstMat l n))) ∧
    (dlookup (collectMaterials l) n).isSome = decide (0 < countFirstMat l n) := by
  obtain ⟨hwf, husers⟩ := collect_go l [] accWF_nil n
  have husersnil : usersAt ([] : PyDict) n = Option.none := rfl
  rw [husersnil] at husers
  constructor
  · exact husers
  · by_cases hc : countFirstMat l n = 0
    · rw [if_pos hc] at husers
      cases hlk : dlookup (collectMaterials l) n with
      | none => simp [hc]
      | some v =>
          obtain ⟨e, m, hve, hu⟩ := hwf n v hlk
          subst hve
          have : usersAt (collectMaterials l) n = some m := by
            unfold usersAt
            unfold collectMaterials
            rw [show dlookup (List.foldl collectStep [] l) n = some (Val.dict e) from hlk]
            show (match dlookup e "users" with
              | some (Val.int m) => some m
              | _ => Option.none) = some m
            rw [hu]
          rw [show collectMaterials l = List.foldl collectStep [] l from rfl] at this
          rw [this] at husers
          exact Option.noConfusion husers
    · rw [if_neg hc] at husers
      have hsome : (dlookup (collectMaterials l) n).isSome = true := by
        cases hlk : dlookup (collectMaterials l) n with
        | none =>
            have : usersAt (collectMaterials l) n = Option.none := by
              unfold usersAt collectMaterials
              rw [show dlookup (List.foldl collectStep [] l) n = Option.none from hlk]
            rw [show collectMaterials l = List.foldl collectStep [] l from rfl] at this
            rw [this] at husers
            exact Option.noConfusion husers
        | some v => rfl
      rw [hsome]
      have : 0 < countFirstMat l n := by omega
      simp [this]

/-! ### Claim C3 -/

/-- One entry's contribution to a link's combined collision bitmask, as
the claim states it: OR in the integer `bitmask` value (a Python bool
being its 0/1 integer), skip entries without one. -/
def orStepTotal (acc : Int) (kv : String × Val) : Int :=
  match kv.2 with
  | Val.dict cd =>
      (match dlookup cd "bitmask" with
       | some (Val.int m) => Int.lor acc m
       | some (Val.bool b) => Int.lor acc (if b then 1 else 0)
       | _ => acc)
  | _ => acc

/-- The bitwise OR of the `bitmask` values of a link's collision
entries, 0 when there are none. -/
def orBitmasks (c : List (String × Val)) : Int :=
  c.foldl orStepTotal 0

theorem orStep_ok (acc : Int) (kv : String × Val) (v : Int)
    (h : orStep acc kv = Except.ok v) : v = orStepTotal acc kv := by
  unfold orStep at h
  unfold orStepTotal
  cases kv with
  | mk k w =>
      cases w with
      | dict cd =>
          have h2 : (match dlookup cd "bitmask" with
              | some (Val.int m) => Except.ok (Int.lor acc m)
              | some (Val.bool b) => Except.ok (Int.lor acc (if b then 1 else 0))
              | some _ => (Except.error "TypeError: unsupported operand type for |" :
                  Except String Int)
              | Option.none => Except.ok acc) = Except.ok v := h
          show v = (match dlookup cd "bitmask" with
              | some (Val.int m) => Int.lor acc m
              | some (Val.bool b) => Int.lor acc (if b then 1 else 0)
              | _ => acc)
          cases hb : dlookup cd "bitmask" with
          | none =>
              rw [hb] at h2
              exact (Except.ok.inj h2).symm
          | some bv =>
              rw [hb] at h2
              cases bv with
              | int m => exact (Except.ok.inj h2).symm
              | bool b => exact (Except.ok.inj h2).symm
              | none => exact Except.noConfusion h2
              | str s => exact Except.noConfusion h2
              | list l => exact Except.noConfusion h2
              | dict d => exact Except.noConfusion h2
      | none => exact Except.noConfusion h
      | str s => exact Except.noConfusion h
      | int n => exact Except.noConfusion h
      | bool b => exact Except.noConfusion h
      | list l => exact Except.noConfusion h

theorem orFoldE_ok (c : List (String × Val)) : ∀ acc m : Int,
    orFoldE acc c = Except.ok m → m = c.foldl orStepTotal acc := by
  induction c with
  | nil =>
      intro acc m h
      exact (Except.ok.inj h).symm
  | cons kv rest ih =>
      intro acc m h
      unfold orFoldE at h
      cases hs : orStep acc kv with
      | error e =>
          rw [hs] at h
          exact Except.noConfusion h
      | ok acc2 =>
          rw [hs] at h
          rw [List.foldl_cons, ← orStep_ok acc kv acc2 hs]
          exact ih acc2 m h

theorem bindE_eq_ok {α β : Type} {e : Except String α} {f : α → Except String β}
    {b : β} (h : bindE e f = Except.ok b) :
    ∃ a, e = Except.ok a ∧ f a = Except.ok b := by
  cases e with
  | error msg => exact Except.noConfusion h
  | ok a => exact ⟨a, rfl, h⟩

theorem getDictAt_ok (d : PyDict) (k : String) (e : PyDict)
    (h : getDictAt d k = Except.ok e) : dlookup d k = some (Val.dict e) := by
  unfold getDictAt at h
  cases hl : dlookup d k with
  | none =>
      rw [hl] at h
      exact Except.noConfusion h
  | some v =>
      rw [hl] at h
      cases v with
      | dict d2 => rw [Except.ok.inj h]
      | none => exact Except.noConfusion h
      | str s => exact Except.noConfusion h
      | int n => exact Except.noConfusion h
      | bool b => exact Except.noConfusion h
      | list l => exact Except.noConfusion h

theorem combineLink_ok (ld ld2 : PyDict) (h : combineLink ld = Except.ok ld2) :
    ∃ c, dlookup ld "collision" = some (Val.dict c) ∧
      ld2 = dinsert ld "collision_bitmask" (Val.int (orBitmasks c)) := by
  unfold combineLink at h
  cases hcol : dlookup ld "collision" with
  | none =>
      rw [hcol] at h
      exact Except.noConfusion h
  | some v =>
      rw [hcol] at h
      cases v with
      | dict c =>
          obtain ⟨m, hm, hok⟩ := bindE_eq_ok h
          refine ⟨c, rfl, ?_⟩
          rw [← Except.ok.inj hok]
          rw [orFoldE_ok c 0 m hm]
          rfl
      | none => exact Except.noConfusion h
      | str s => exact Except.noConfusion h
      | int n => exact Except.noConfusion h
      | bool b => exact Except.noConfusion h
      | list l => exact Except.noConfusion h

theorem combineLinks_ok (links : List (String × Val)) :
    ∀ links2, combineLinks links = Except.ok links2 →
    ∀ n ld2, dlookup links2 n = some (Val.dict ld2) →
      ∃ ld, dlookup links n = some (Val.dict ld) ∧ combineLink ld = Except.ok ld2 := by
  induction links with
  | nil =>
      intro links2 h n ld2 hl
      rw [← Except.ok.inj h] at hl
      exact Option.noConfusion hl
  | cons kv rest ih =>
      intro links2 h n ld2 hl
      obtain ⟨k, v⟩ := kv
      unfold combineLinks at h
      cases v with
      | dict ld0 =>
          obtain ⟨ld1, hld1, h2⟩ := bindE_eq_ok h
          obtain ⟨rest2, hrest2, h3⟩ := bindE_eq_ok h2
          rw [← Except.ok.inj h3] at hl
          unfold dlookup at hl
          by_cases hk : k = n
          · rw [if_pos hk] at hl
            refine ⟨ld0, ?_, ?_⟩
            · unfold dlookup
              rw [if_pos hk]
            · have : Val.dict ld1 = Val.dict ld2 := Option.some.inj hl
              rw [← Val.dict.inj this]
              exact hld1
          · rw [if_neg hk] at hl
            obtain ⟨ld, hld, hcl⟩ := ih rest2 hrest2 n ld2 hl
            refine ⟨ld, ?_, hcl⟩
            unfold dlookup
            rw [if_neg hk]
            exact hld
      | none => exact Except.noConfusion h
      | str s => exact Except.noConfusion h
      | int m => exact Except.noConfusion h
      | bool b => exact Except.noConfusion h
      | list l => exact Except.noConfusion h

/-- The per-link property the claim states, over a links section. -/
def linkBitmaskOK (links : List (String × Val)) : Prop :=
  ∀ n ld c, dlookup links n = some (Val.dict ld) →
    dlookup ld "collision" = some (Val.dict c) →
    dlookup ld "collision_bitmask" = some (Val.int (orBitmasks c))

/-- The robot-level property: whatever the `links` section holds
satisfies `linkBitmaskOK`. -/
def linksOK (robot : PyDict) : Prop :=
  ∀ links, dlookup robot "links" = some (Val.dict links) → linkBitmaskOK links

theorem combinePass_ok (robot robot2 : PyDict)
    (h : combinePass robot = Except.ok robot2) : linksOK robot2 := by
  unfold combinePass at h
  obtain ⟨links, hlinks, h2⟩ := bindE_eq_ok h
  obtain ⟨links2, hlinks2, h3⟩ := bindE_eq_ok h2
  intro links3 hl3
  rw [← Except.ok.inj h3, dlookup_dinsert_self] at hl3
  rw [← Val.dict.inj (Option.some.inj hl3)]
  intro n ld c hld hcol
  obtain ⟨ld0, hld0, hcl⟩ := combineLinks_ok links links2 hlinks2 n ld hld
  obtain ⟨c0, hc0, hld2⟩ := combineLink_ok ld0 ld hcl
  rw [hld2] at hcol
  rw [dlookup_dinsert_ne _ _ _ _ (by decide)] at hcol
  rw [hc0] at hcol
  have hcc : c0 = c := Val.dict.inj (Option.some.inj hcol)
  rw [hld2, dlookup_dinsert_self, hcc]

theorem dlookup_setSection_ne (robot : PyDict) (sec k : String) (v : Val) (robot2 : PyDict)
    (h : setSection robot sec k v = Except.ok robot2) (k0 : String) (hne : sec ≠ k0) :
    dlookup robot2 k0 = dlookup robot k0 := by
  unfold setSection at h
  obtain ⟨d, hd, h2⟩ := bindE_eq_ok h
  rw [← Except.ok.inj h2]
  exact dlookup_dinsert_ne _ _ _ _ hne

theorem foldE_preserves {α : Type} (f : PyDict → α → Except String PyDict)
    (P : PyDict → Prop)
    (hf : ∀ r x r2, f r x = Except.ok r2 → P r → P r2) :
    ∀ (l : List α) (r r2 : PyDict), foldE f r l = Except.ok r2 → P r → P r2 := by
  intro l
  induction l with
  | nil =>
      intro r r2 h hp
      rw [← Except.ok.inj h]
      exact hp
  | cons x rest ih =>
      intro r r2 h hp
      unfold foldE at h
      cases hs : f r x with
      | error e =>
          rw [hs] at h
          exact Except.noConfusion h
      | ok rmid =>
          rw [hs] at h
          exact ih rmid r2 h (hf r x rmid hs hp)

theorem linksOK_of_lookup_eq (r r2 : PyDict)
    (h : dlookup r2 "links" = dlookup r "links") (hp : linksOK r) : linksOK r2 := by
  intro links hl
  rw [h] at hl
  exact hp links hl

theorem sensorStep_preserves (env : Env) (w : World) (r : PyDict) (o : Obj) (r2 : PyDict)
    (h : sensorStep env w r o = Except.ok r2) (hp : linksOK r) : linksOK r2 := by
  unfold sensorStep at h
  by_cases hc : (o.core.phobostype == "sensor" || o.core.phobostype == "controller") = true
  · rw [if_pos hc] at h
    obtain ⟨props, hprops, h2⟩ := bindE_eq_ok h
    have hc2 : o.core.phobostype = "sensor" ∨ o.core.phobostype = "controller" := by
      simpa using hc
    have hsec : o.core.phobostype ++ "s" ≠ "links" := by
      rcases hc2 with h1 | h1
      · rw [h1]
        decide
      · rw [h1]
        decide
    exact linksOK_of_lookup_eq _ _ (dlookup_setSection_ne _ _ _ _ _ h2 "links" hsec) hp
  · rw [if_neg hc] at h
    rw [← Except.ok.inj h]
    exact hp

theorem linkBitmaskOK_dinsert_visual (links : List (String × Val)) (pn : String)
    (ld : PyDict) (v : Val) (hok : linkBitmaskOK links)
    (hld : dlookup links pn = some (Val.dict ld)) :
    linkBitmaskOK (dinsert links pn (Val.dict (dinsert ld "visual" v))) := by
  intro n ld2 c hld2 hcol
  by_cases hn : pn = n
  · subst hn
    rw [dlookup_dinsert_self] at hld2
    have hld2e : dinsert ld "visual" v = ld2 := Val.dict.inj (Option.some.inj hld2)
    rw [← hld2e] at hcol
    rw [dlookup_dinsert_ne _ _ _ _ (by decide)] at hcol
    rw [← hld2e, dlookup_dinsert_ne _ _ _ _ (by decide)]
    exact hok pn ld c hld hcol
  · rw [dlookup_dinsert_ne _ _ _ _ hn] at hld2
    exact hok n ld2 c hld2 hcol

theorem materialStep_preserves (r : PyDict) (o : Obj) (r2 : PyDict)
    (h : materialStep r o = Except.ok r2) (hp : linksOK r) : linksOK r2 := by
  unfold materialStep at h
  by_cases hc : (o.core.phobostype == "visual") = true
  · rw [if_pos hc] at h
    cases hm : o.core.materials with
    | nil =>
        rw [hm] at h
        rw [← Except.ok.inj h]
        exact hp
    | cons mat mrest =>
        rw [hm] at h
        obtain ⟨mats, hmats, h2⟩ := bindE_eq_ok h
        cases ha : o.ancestors with
        | nil =>
            rw [ha] at h2
            exact Except.noConfusion h2
        | cons p arest =>
            rw [ha] at h2
            obtain ⟨links, hlinks, h3⟩ := bindE_eq_ok h2
            obtain ⟨ld, hld, h4⟩ := bindE_eq_ok h3
            obtain ⟨vd, hvd, h5⟩ := bindE_eq_ok h4
            obtain ⟨ve, hve, h6⟩ := bindE_eq_ok h5
            rw [← Except.ok.inj h6]
            intro links2 hl2
            rw [dlookup_dinsert_self] at hl2
            rw [← Val.dict.inj (Option.some.inj hl2)]
            have hrOK : linksOK (if (dlookup mats (getMaterialName mat)).isSome then r
                else dinsert r "materials" (Val.dict (dinsert mats (getMaterialName mat)
                  (Val.dict (deriveMaterial mat))))) := by
              by_cases hin : (dlookup mats (getMaterialName mat)).isSome
              · rw [if_pos hin]
                exact hp
              · rw [if_neg hin]
                exact linksOK_of_lookup_eq _ _ (dlookup_dinsert_ne _ _ _ _ (by decide)) hp
            have hlb : linkBitmaskOK links := hrOK links (getDictAt_ok _ _ _ hlinks)
            exact linkBitmaskOK_dinsert_visual links _ ld _ hlb (getDictAt_ok _ _ _ hld)
  · rw [if_neg hc] at h
    rw [← Except.ok.inj h]
    exact hp

theorem materialsPass_preserves (objectlist : List Obj) (r r2 : PyDict)
    (h : materialsPass objectlist r = Except.ok r2) (hp : linksOK r) : linksOK r2 := by
  unfold materialsPass at h
  have hp1 : linksOK (dinsert r "materials" (Val.dict (collectMaterials objectlist))) :=
    linksOK_of_lookup_eq _ _ (dlookup_dinsert_ne _ _ _ _ (by decide)) hp
  exact foldE_preserves materialStep linksOK
    (fun a b c hh hh2 => materialStep_preserves a b c hh hh2) objectlist _ r2 h hp1

theorem groupsPass_preserves (scene : Scene) (r r2 : PyDict)
    (h : groupsPass scene r = Except.ok r2) (hp : linksOK r) : linksOK r2 := by
  unfold groupsPass at h
  refine foldE_preserves _ linksOK ?_ scene.groups r r2 h hp
  intro r0 g r02 hstep hp0
  by_cases hc : (!g.objects.isEmpty && (getGroupName g != "RigidBodyWorld")) = true
  · rw [if_pos hc] at hstep
    exact linksOK_of_lookup_eq _ _
      (dlookup_setSection_ne _ _ _ _ _ hstep "links" (by decide)) hp0
  · rw [if_neg hc] at hstep
    rw [← Except.ok.inj hstep]
    exact hp0

theorem chainStep_preserves (r : PyDict) (o : Obj) (r2 : PyDict)
    (h : chainStep r o = Except.ok r2) (hp : linksOK r) : linksOK r2 := by
  unfold chainStep at h
  by_cases hc : (o.core.phobostype == "link" && (dlookup o.core.props "endChain").isSome) = true
  · rw [if_pos hc] at h
    obtain ⟨chains, hch, h2⟩ := bindE_eq_ok h
    refine foldE_preserves _ linksOK ?_ chains r r2 h2 hp
    intro r0 ch r02 hstep hp0
    exact linksOK_of_lookup_eq _ _
      (dlookup_setSection_ne _ _ _ _ _ hstep "links" (by decide)) hp0
  · rw [if_neg hc] at h
    rw [← Except.ok.inj h]
    exact hp

theorem lightStep_preserves (r : PyDict) (o : Obj) (r2 : PyDict)
    (h : lightStep r o = Except.ok r2) (hp : linksOK r) : linksOK r2 := by
  unfold lightStep at h
  by_cases hc : (o.core.phobostype == "light") = true
  · rw [if_pos hc] at h
    obtain ⟨l, hl, h2⟩ := bindE_eq_ok h
    exact linksOK_of_lookup_eq _ _
      (dlookup_setSection_ne _ _ _ _ _ h2 "links" (by decide)) hp
  · rw [if_neg hc] at h
    rw [← Except.ok.inj h]
    exact hp

/-- Claim C3: in the dictionary `buildModelDictionary` builds, every
link's `collision_bitmask` is the bitwise OR of the `bitmask` values of
that link's collision entries, entries lacking a `bitmask` key skipped,
and 0 when there are none (`orBitmasks` of the link's `collision`
section). -/
theorem C3_collision_bitmask (env : Env) (scene : Scene) (root : Obj) (d : PyDict)
    (hok : buildRobotDict env scene root = Except.ok d) :
    ∀ links, dlookup d "links" = some (Val.dict links) → linkBitmaskOK links := by
  unfold buildRobotDict at hok
  by_cases hr : root.core.phobostype ≠ "link"
  · rw [if_pos hr] at hok
    exact Except.noConfusion hok
  · rw [if_neg hr] at hok
    obtain ⟨r1, h1, hok⟩ := bindE_eq_ok hok
    obtain ⟨r2, h2, hok⟩ := bindE_eq_ok hok
    obtain ⟨r3, h3, hok⟩ := bindE_eq_ok hok
    obtain ⟨r4, h4, hok⟩ := bindE_eq_ok hok
    obtain ⟨r5, h5, hok⟩ := bindE_eq_ok hok
    obtain ⟨r6, h6, hok⟩ := bindE_eq_ok hok
    obtain ⟨r7, h7, hok⟩ := bindE_eq_ok hok
    obtain ⟨r8, h8, hok⟩ := bindE_eq_ok hok
    have hd := Except.ok.inj hok
    have hOK3 : linksOK r3 := combinePass_ok r2 r3 h3
    have hOK4 : linksOK r4 := foldE_preserves (sensorStep env scene.world) linksOK
      (fun a b c hh hp => sensorStep_preserves env scene.world a b c hh hp) _ r3 r4 h4 hOK3
    have hOK5 : linksOK r5 := materialsPass_preserves _ r4 r5 h5 hOK4
    have hOK6 : linksOK r6 := groupsPass_preserves scene r5 r6 h6 hOK5
    have hOK7 : linksOK r7 := foldE_preserves chainStep linksOK
      (fun a b c hh hp => chainStep_preserves a b c hh hp) _ r6 r7 h7 hOK6
    have hOK8 : linksOK r8 := foldE_preserves lightStep linksOK
      (fun a b c hh hp => lightStep_preserves a b c hh hp) _ r7 r8 h8 hOK7
    intro links hlinks
    rw [← hd] at hlinks
    rw [dlookup_dinsert_ne _ _ _ _ (by decide)] at hlinks
    exact hOK8 links hlinks

/-- The robot dict built from the one-link scene. -/
def robotC3 : PyDict := (buildRobotDict defEnv sceneT rootT).toOption.getD []

/-- Its links section. -/
def linksC3 : List (String × Val) :=
  match dlookup robotC3 "links" with
  | some (Val.dict l) => l
  | _ => []

/-- Witness for C3 on the one-link scene. -/
theorem C3_witness : linkBitmaskOK linksC3 :=
  C3_collision_bitmask defEnv sceneT rootT robotC3 (by rfl) linksC3 (by rfl)

end Phobos
